import Mathlib

/-
Verification of the message-scheduling core of the SoundPlayerDetel radio
player: the queue scheduler (services/queue_service.py), the persistence and
restart-detection logic (services/message_queue_serializer.py), the item model
(models/message_item.py), the fade coordinator (services/audio_fade_manager.py)
and the playback loop (services/message_queue_manager.py).

Modelling conventions:
- Timestamps and durations are rationals (seconds since an arbitrary epoch);
  Python datetime and timedelta support fractional seconds, which the
  rationals capture exactly.  Message intervals are rationals (minutes).
- Priorities are integers, filenames are strings, volumes are integers.
- Python attributes that may be absent or None (end_time, last_played,
  interval_seconds) are Option fields; absent and None behave identically in
  every code path in scope (they are only read through truthiness or hasattr
  guards), so both are modelled as none.
- The source keeps the queue in a Python heapq list.  The heap operations
  (heappush, heapify) only permute the list; no code path in scope reads the
  heap ORDER (selection, activation and matching always filter or scan by
  field predicates, and every property proved below is invariant under
  permutation of the list), so heappush is modelled as appending and heapify
  as the identity permutation.
- Python dictionaries are association lists in insertion order; replacing the
  value under an existing key keeps its position, as dict does.
- Python list comprehensions and the for/if/break loops of the source are
  modelled by structurally recursive list functions defined right below.
- print calls, the GUI update callback and file IO in the source are effect
  free with respect to the scheduler state and are omitted.
-/

/-! ## Python-flavoured list helpers -/

/-- Python int() applied to a rational: truncation toward zero. -/
def pyint (q : ℚ) : ℤ :=
  if q < 0 then -⌊-q⌋ else ⌊q⌋

/-- Python min() over a nonempty sequence, as a left fold. -/
def pyminAux (x : ℤ) : List ℤ → ℤ
  | [] => x
  | y :: ys => pyminAux (min x y) ys

/-- Python min() over a list of integers (none on an empty list, where the
source would raise ValueError; every caller in scope guards for emptiness). -/
def pymin : List ℤ → Option ℤ
  | [] => none
  | x :: xs => some (pyminAux x xs)

/-- A list comprehension with a filter clause. -/
def pyFilter (P : α → Prop) [DecidablePred P] : List α → List α
  | [] => []
  | x :: xs => if P x then x :: pyFilter P xs else pyFilter P xs

/-- Python any() over a generator, as a Bool. -/
def pyAny (P : α → Prop) [DecidablePred P] : List α → Bool
  | [] => false
  | x :: xs => if P x then true else pyAny P xs

/-- First element satisfying a predicate (a for loop with a break). -/
def pyFindFirst (P : α → Prop) [DecidablePred P] : List α → Option α
  | [] => none
  | x :: xs => if P x then some x else pyFindFirst P xs

/-- Lookup in an association list (Python dict access by key). -/
def pyLookup [DecidableEq κ] (key : κ) : List (κ × β) → Option β
  | [] => none
  | (k, v) :: xs => if k = key then some v else pyLookup key xs

/-- Replacement of the value stored under a key of an association list; the
entry keeps its position, as a Python dict assignment to an existing key. -/
def pyReplace [DecidableEq κ] (key : κ) (v : β) : List (κ × β) → List (κ × β)
  | [] => []
  | (k, w) :: xs =>
      if k = key then (k, v) :: xs else (k, w) :: pyReplace key v xs

/-- The distinct elements of a list (Python set()); only membership is ever
used, so the order produced here is irrelevant. -/
def pyDedup [DecidableEq α] : List α → List α
  | [] => []
  | x :: xs => if x ∈ pyDedup xs then pyDedup xs else x :: pyDedup xs

/-- Stable insertion of an element into a list sorted by the strict order lt:
the element is placed before the first entry that is not strictly below it,
which preserves the relative order of equal keys. -/
def insertSorted (lt : α → α → Prop) [DecidableRel lt] (x : α) :
    List α → List α
  | [] => [x]
  | y :: ys => if lt y x then y :: insertSorted lt x ys else x :: y :: ys

/-- Stable sort by the strict order lt.  Python list.sort(key=k) is a stable
sort; any stable sort produces the same list, so this structurally recursive
insertion sort is an exact model of it with lt a b = (k a < k b). -/
def stableSort (lt : α → α → Prop) [DecidableRel lt] : List α → List α
  | [] => []
  | x :: xs => insertSorted lt x (stableSort lt xs)

/-! ## models/message_item.py -/

/-- MessageQueueItem from models/message_item.py.  The constructor stores the
filename, the priority, the interval in minutes, sets next_play_time to the
current time, end_time to None and is_pending to (priority > 1).  The
attributes last_played and interval_seconds do not exist on a freshly built
item (other components attach them later); both are modelled as none. -/
structure MessageQueueItem where
  filename : String
  priority : ℤ
  interval : ℚ
  next_play_time : ℚ
  end_time : Option ℚ
  is_pending : Bool
  last_played : Option ℚ
  interval_seconds : Option ℤ
deriving DecidableEq, Repr

/-- MessageQueueItem.__init__(filename, priority, interval) evaluated at
current time now. -/
def mkMessageQueueItem (filename : String) (priority : ℤ) (interval : ℚ)
    (now : ℚ) : MessageQueueItem :=
  { filename := filename
    priority := priority
    interval := interval
    next_play_time := now
    end_time := none
    is_pending := priority > 1
    last_played := none
    interval_seconds := none }

/-! ## services/message_queue_serializer.py -/

/-- One entry of the persisted messages array.  filename, priority and
interval are required keys (a missing one raises KeyError, which the outer
handler of load_queue turns into an empty result; such malformed entries are
out of scope).  The remaining keys are optional in the file. -/
structure SerializedItem where
  filename : String
  priority : ℤ
  interval : ℚ
  interval_seconds : Option ℤ
  next_play_time : Option ℚ
  is_pending : Option Bool
  end_time : Option ℚ
  last_played : Option ℚ
deriving DecidableEq, Repr

/-- The save_timestamp field of the metadata wrapper: absent (or empty, which
Python truthiness treats the same way), present but unparseable by
datetime.fromisoformat, or a valid timestamp. -/
inductive TsField where
  | absent : TsField
  | malformed : TsField
  | valid : ℚ → TsField
deriving DecidableEq, Repr

/-- Metadata wrapper of the new snapshot format.  A missing is_shutdown_save
key defaults to False through dict.get, so the field is a plain Bool. -/
structure SnapshotMetadata where
  save_timestamp : TsField
  is_shutdown_save : Bool
  messages : List SerializedItem
deriving Repr

/-- A parsed snapshot file: either the legacy bare JSON array or the
metadata-wrapped format. -/
inductive SaveData where
  | legacyList : List SerializedItem → SaveData
  | wrapped : SnapshotMetadata → SaveData
deriving Repr

/-- The time_gap computed inside _detect_program_restart_v2: 0 when
save_timestamp is absent, 999999 when parsing it fails, and now - last_save
otherwise. -/
def time_gap (now : ℚ) : TsField → ℚ
  | TsField.absent => 0
  | TsField.malformed => 999999
  | TsField.valid t => now - t

/-- _detect_program_restart_v2 from message_queue_serializer.py.
session_was_active is the existence test of the session lock file at call
time.  Decision order as in the source: shutdown save, then missing session
marker, then a time gap above 60 seconds, otherwise a live reload.  (The
enclosing try/except of the source cannot fire in this pure model.) -/
def detect_program_restart_v2 (session_was_active : Bool)
    (save_data : SnapshotMetadata) (now : ℚ) : Bool :=
  if save_data.is_shutdown_save then true
  else if !session_was_active then true
  else if time_gap now save_data.save_timestamp > 60 then true
  else false

/-- Restart decision as worded by the spec (section 4.2): if the snapshot is
flagged as a shutdown save, restart; else if the session marker is missing,
restart; else if the gap exceeds 60 seconds, restart; otherwise live reload.
Used only to compare the code against the spec wording. -/
def restartDecisionSpec (is_shutdown_save marker_present : Bool)
    (gap : ℚ) : Bool :=
  if is_shutdown_save then true
  else if !marker_present then true
  else if gap > 60 then true
  else false

/-- The per-item body of the load loop in load_queue.  Builds the item with
the MessageQueueItem constructor, restores interval_seconds (defaulting to
int(interval * 60)), then either resets everything (restart branch) or
restores the persisted fields verbatim (live-reload branch).  In the
live-reload branch a missing next_play_time key raises KeyError, modelled as
none, which aborts the whole load. -/
def load_item (is_restart : Bool) (now : ℚ) (d : SerializedItem) :
    Option MessageQueueItem :=
  let item0 := mkMessageQueueItem d.filename d.priority d.interval now
  let isec : ℤ := d.interval_seconds.getD (pyint (d.interval * 60))
  if is_restart then
    some { item0 with
            interval_seconds := some isec
            next_play_time := now + isec
            is_pending := d.priority > 1
            last_played := none
            end_time := none }
  else
    match d.next_play_time with
    | none => none
    | some npt =>
        some { item0 with
                interval_seconds := some isec
                next_play_time := npt
                is_pending := d.is_pending.getD false
                end_time := d.end_time
                last_played := d.last_played }

/-- The item loop of load_queue; a failure on any entry aborts the whole
load (the exception reaches the outer handler). -/
def loadItems (is_restart : Bool) (now : ℚ) :
    List SerializedItem → Option (List MessageQueueItem)
  | [] => some []
  | d :: ds =>
      match load_item is_restart now d, loadItems is_restart now ds with
      | some it, some rest => some (it :: rest)
      | _, _ => none

/-- load_queue from message_queue_serializer.py.  data = none models a
missing, unreadable or unparseable snapshot file (the source returns an empty
queue in those cases).  A bare array forces is_restart = true; the wrapped
format runs the restart detector.  Any exception inside the item loop is
caught by the outer handler and degrades to an empty queue. -/
def load_queue (session_was_active : Bool) (data : Option SaveData)
    (now : ℚ) : List MessageQueueItem :=
  match data with
  | none => []
  | some (SaveData.legacyList items) => (loadItems true now items).getD []
  | some (SaveData.wrapped md) =>
      let is_restart := detect_program_restart_v2 session_was_active md now
      (loadItems is_restart now md.messages).getD []

/-! ## services/queue_service.py -/

/-- State owned by QueueService: the heap list of items, the per-priority
dictionary of last end times, the last global end time and the currently
playing copy. -/
structure QueueState where
  message_queue : List MessageQueueItem
  last_end_time_by_priority : List (ℤ × ℚ)
  last_global_end_time : Option ℚ
  currently_playing : Option MessageQueueItem
deriving DecidableEq, Repr

/-- heapq.heappush: appends the item and restores the heap shape, a
permutation of appending.  Modelled as append (see the header note). -/
def heappush (queue : List MessageQueueItem) (item : MessageQueueItem) :
    List MessageQueueItem :=
  queue ++ [item]

/-- heapq.heapify: an in-place permutation of the list.  Modelled as the
identity permutation (see the header note). -/
def heapify (queue : List MessageQueueItem) : List MessageQueueItem :=
  queue

/-- The fresh QueueService state built by __init__ when no persistence path
is given. -/
def emptyQueueState : QueueState :=
  { message_queue := []
    last_end_time_by_priority := []
    last_global_end_time := none
    currently_playing := none }

/-- _find_next_priority from queue_service.py: collect the set of priorities
present in the queue, scan them in ascending order for the first one strictly
above current_priority, and wrap around to the minimum when none is above. -/
def find_next_priority (queue : List MessageQueueItem)
    (current_priority : ℤ) : Option ℤ :=
  let available := pyDedup (queue.map (·.priority))
  if available = [] then none
  else
    match pyFindFirst (fun p => p > current_priority)
        (stableSort (fun a b : ℤ => a < b) available) with
    | some q => some q
    | none => pymin available

/-- The branch condition of add_message: there is no queued message, or the
new priority is at most the minimum existing one. -/
def topPriorityBranch (priority : ℤ) (existing : List ℤ) : Prop :=
  match pymin existing with
  | none => True
  | some m => priority ≤ m

instance (p : ℤ) (existing : List ℤ) :
    Decidable (topPriorityBranch p existing) := by
  unfold topPriorityBranch
  cases pymin existing <;> infer_instance

/-- add_message from queue_service.py.  Returns the updated state and the
created item, or none (state unchanged) when the filename is already queued.
When the new priority is at most every existing one (or the queue is empty)
the item is activated with next_play_time = now + 10 seconds and every item
of strictly greater priority is marked pending; otherwise the item starts
pending, scheduled after the recorded end of the top priority tier when one
is recorded and at now + 30 seconds otherwise. -/
def add_message (s : QueueState) (filename : String) (priority : ℤ)
    (interval : ℚ) (now : ℚ) : QueueState × Option MessageQueueItem :=
  if pyAny (fun item => item.filename = filename) s.message_queue then
    (s, none)
  else
    let message := mkMessageQueueItem filename priority interval now
    let existing := s.message_queue.map (·.priority)
    if topPriorityBranch priority existing then
      let message := { message with
                        next_play_time := now + 10
                        is_pending := false }
      let queue := s.message_queue.map (fun item =>
        if item.priority > priority then { item with is_pending := true }
        else item)
      ({ s with message_queue := heappush queue message }, some message)
    else
      let higher_priority := (pymin existing).getD 0
      let message :=
        match pyLookup higher_priority s.last_end_time_by_priority with
        | some last_end =>
            { message with
               next_play_time := last_end + interval * 60
               is_pending := true }
        | none =>
            { message with
               next_play_time := now + 30
               is_pending := true }
      ({ s with message_queue := heappush s.message_queue message },
       some message)

/-- ETAPA 1 of register_message_end: scan for the first queued item matching
the filename and the priority of the finished message; when found, either
reschedule it in place (interval > 0) or remove it (interval <= 0), and stop
scanning.  Returns the new list and the original_message_found flag. -/
def registerEndEtapa1 (message : MessageQueueItem) (end_time : ℚ) :
    List MessageQueueItem → List MessageQueueItem × Bool
  | [] => ([], false)
  | msg :: rest =>
      if msg.filename = message.filename ∧ msg.priority = message.priority then
        if message.interval > 0 then
          ({ msg with
              next_play_time := end_time + message.interval * 60
              end_time := some end_time } :: rest, true)
        else (rest, true)
      else
        let r := registerEndEtapa1 message end_time rest
        (msg :: r.1, r.2)

/-- ETAPA 2 of register_message_end: activate every item of the next cyclic
priority tier (recomputing its next_play_time from the end time and its own
interval) and mark every item of a strictly greater priority pending. -/
def registerEndEtapa2 (queue : List MessageQueueItem) (end_time : ℚ)
    (next_priority : Option ℤ) : List MessageQueueItem :=
  match next_priority with
  | none => queue
  | some np =>
      if pyAny (fun msg => msg.priority = np) queue then
        (queue.map (fun msg =>
            if msg.priority = np then
              { msg with
                 next_play_time := end_time + msg.interval * 60
                 is_pending := false }
            else msg)).map (fun msg =>
          if msg.priority > np then { msg with is_pending := true } else msg)
      else queue

/-- register_message_end from queue_service.py.  The end timestamp is read
from message.end_time; when that attribute is None the source raises on the
first strftime call, modelled as none.  Records the end time per priority and
globally, runs ETAPA 1 (reschedule or drop the finished item, pushing the
finished copy back as pending when it was not found and repeats), computes
the next cyclic priority, runs ETAPA 2, clears currently_playing and
re-heapifies. -/
def register_message_end (s : QueueState) (message : MessageQueueItem) :
    Option QueueState :=
  match message.end_time with
  | none => none
  | some end_time =>
      let lebp :=
        if (pyLookup message.priority s.last_end_time_by_priority).isSome then
          pyReplace message.priority end_time s.last_end_time_by_priority
        else s.last_end_time_by_priority ++ [(message.priority, end_time)]
      let e1 := registerEndEtapa1 message end_time s.message_queue
      let q1 :=
        if e1.2 = false ∧ message.interval > 0 then
          heappush e1.1 { message with
                           next_play_time := end_time + message.interval * 60
                           is_pending := true }
        else e1.1
      let next_priority := find_next_priority q1 message.priority
      let q2 := registerEndEtapa2 q1 end_time next_priority
      some { message_queue := heapify q2
             last_end_time_by_priority := lebp
             last_global_end_time := some end_time
             currently_playing := none }

/-- The latest_messages dictionary built by identify_duplicates: one entry
per filename; on a second occurrence of a filename the stored item is
replaced exactly when the new one has a strictly smaller next_play_time. -/
def latestMessages (queue : List MessageQueueItem) :
    List (String × MessageQueueItem) :=
  queue.foldl (fun m item =>
    match pyLookup item.filename m with
    | some cur =>
        if item.next_play_time < cur.next_play_time then
          pyReplace item.filename item m
        else m
    | none => m ++ [(item.filename, item)]) []

/-- identify_duplicates from queue_service.py: an item that is not the
retained entry for its filename and is currently active is marked pending.
The source compares objects by identity; the structural comparison used here
coincides with identity whenever no two distinct queued items carry equal
field values, which holds in every state considered below. -/
def identify_duplicates (queue : List MessageQueueItem) :
    List MessageQueueItem :=
  if queue = [] then queue
  else
    let latest := latestMessages queue
    queue.map (fun item =>
      match pyLookup item.filename latest with
      | some latest_item =>
          if item ≠ latest_item ∧ item.is_pending = false then
            { item with is_pending := true }
          else item
      | none => item)

/-- get_next_message from queue_service.py.  Runs identify_duplicates, then
filters the active items, then those whose scheduled time has passed, keeps
the ones of minimal priority, sorts them by next_play_time when more than one
remains, returns a deep copy of the first one and marks every queued item
with the same filename, priority and next_play_time pending. -/
def get_next_message (s : QueueState) (now : ℚ) :
    QueueState × Option MessageQueueItem :=
  let q := identify_duplicates s.message_queue
  let s := { s with message_queue := q }
  if q = [] then (s, none)
  else
    let active_messages := pyFilter (fun m => m.is_pending = false) q
    if active_messages = [] then (s, none)
    else
      let ready_messages :=
        pyFilter (fun m => now - m.next_play_time ≥ 0) active_messages
      if ready_messages = [] then (s, none)
      else
        let min_priority := (pymin (ready_messages.map (·.priority))).getD 0
        let hpm := pyFilter (fun m => m.priority = min_priority) ready_messages
        let hpm := if hpm.length > 1 then
            stableSort (fun a b => a.next_play_time < b.next_play_time) hpm
          else hpm
        match hpm with
        | [] => (s, none)
        | selected :: _ =>
            let q2 := q.map (fun msg =>
              if msg.filename = selected.filename ∧
                 msg.priority = selected.priority ∧
                 msg.next_play_time = selected.next_play_time then
                { msg with is_pending := true }
              else msg)
            ({ s with message_queue := q2, currently_playing := some selected },
             some selected)

/-- The deduplication pass of _reset_expired_times: one retained item per
(filename, priority) pair, keeping the one with the strictly greater
next_play_time, in dictionary insertion order. -/
def uniqueByFilePriority (items : List MessageQueueItem) :
    List ((String × ℤ) × MessageQueueItem) :=
  items.foldl (fun m item =>
    match pyLookup (item.filename, item.priority) m with
    | some cur =>
        if item.next_play_time > cur.next_play_time then
          pyReplace (item.filename, item.priority) item m
        else m
    | none => m ++ [((item.filename, item.priority), item)]) []

/-- _reset_expired_times from queue_service.py: deduplicate by (filename,
priority), sort by priority, then force the pending flags from the minimum
priority present (the lowest tier becomes active, every other tier pending);
items of the lowest tier whose scheduled time already passed are rescheduled
to now + 10 seconds. -/
def reset_expired_times (now : ℚ) (items : List MessageQueueItem) :
    List MessageQueueItem :=
  if items = [] then items
  else
    let uniq := (uniqueByFilePriority items).map (·.2)
    let sorted := stableSort (fun a b => a.priority < b.priority) uniq
    match pymin (sorted.map (·.priority)) with
    | none => sorted
    | some lowest =>
        sorted.map (fun item =>
          if item.next_play_time ≤ now then
            if item.priority = lowest then
              { item with is_pending := false, next_play_time := now + 10 }
            else { item with is_pending := true }
          else
            if item.priority = lowest then { item with is_pending := false }
            else { item with is_pending := true })

/-- QueueService.__init__ with a persistence path: load the snapshot through
the serializer, run _reset_expired_times on the result and heapify.  The
remaining fields start empty. -/
def queue_service_init (session_was_active : Bool) (data : Option SaveData)
    (now : ℚ) : QueueState :=
  let saved := load_queue session_was_active data now
  let q := reset_expired_times now saved
  { message_queue := heapify q
    last_end_time_by_priority := []
    last_global_end_time := none
    currently_playing := none }

/-- The set of items eligible for selection at a given instant: active
(is_pending = false) with a next_play_time that has passed. -/
def eligibleMessages (queue : List MessageQueueItem) (now : ℚ) :
    List MessageQueueItem :=
  pyFilter (fun m => m.is_pending = false ∧ now - m.next_play_time ≥ 0) queue

/-! ## services/audio_fade_manager.py -/

/-- The fade curve kinds of AudioFadeManager. -/
inductive FadeCurve where
  | linear : FadeCurve
  | exponential : FadeCurve
  | logarithmic : FadeCurve
  | smooth : FadeCurve
deriving DecidableEq, Repr

/-- calculate_fade_value from audio_fade_manager.py: clamp progress to
[0, 1], then apply the selected curve.  math.sqrt and the sine are
irrational-valued, so they are supplied as oracle functions: sqrtFn models
math.sqrt and sinPiFn x models sin(pi * x), making the smooth curve
0.5 * (1 + sin(pi * (progress - 0.5))). -/
def calculate_fade_value (sqrtFn sinPiFn : ℚ → ℚ) (curve : FadeCurve)
    (progress : ℚ) : ℚ :=
  let p := max 0 (min 1 progress)
  match curve with
  | FadeCurve.linear => p
  | FadeCurve.exponential => p * p
  | FadeCurve.logarithmic => sqrtFn p
  | FadeCurve.smooth => (1/2) * (1 + sinPiFn (p - 1/2))

/-- The step-rate attribute self.fade_steps, set to 100 in __init__. -/
def fade_steps_per_second : ℤ := 100

/-- The end-volume clamp at the top of fade_radio_volume: a requested end
below self.background_volume is raised to it. -/
def fadeClampedEnd (background_volume end_volume : ℤ) : ℤ :=
  if end_volume < background_volume then background_volume else end_volume

/-- The step count computed inside both fade loop bodies:
int(duration * self.fade_steps), at least 1. -/
def fadeNumSteps (duration : ℚ) : ℤ :=
  let steps := pyint (duration * (fade_steps_per_second : ℚ))
  if steps < 1 then 1 else steps

/-- Volume applied at step i by the FIRST fade loop defined inside
fade_radio_volume (the corrected body): the interpolated value is clamped to
[self.background_volume, 100]. -/
def fadeLoop1Volume (sqrtFn sinPiFn : ℚ → ℚ) (curve : FadeCurve)
    (background_volume start_volume end_volume : ℤ) (steps i : ℤ) : ℤ :=
  let progress : ℚ := (i : ℚ) / (steps : ℚ)
  let fade_value := calculate_fade_value sqrtFn sinPiFn curve progress
  let current := pyint ((start_volume : ℚ) +
    ((end_volume : ℚ) - (start_volume : ℚ)) * fade_value)
  max background_volume (min 100 current)

/-- Volume applied at step i by the SECOND fade loop defined inside
fade_radio_volume (the stale duplicate body started as a second thread): the
interpolated value is clamped only to [0, 100], without the background-volume
floor. -/
def fadeLoop2Volume (sqrtFn sinPiFn : ℚ → ℚ) (curve : FadeCurve)
    (start_volume end_volume : ℤ) (steps i : ℤ) : ℤ :=
  let progress : ℚ := (i : ℚ) / (steps : ℚ)
  let fade_value := calculate_fade_value sqrtFn sinPiFn curve progress
  let current := pyint ((start_volume : ℚ) +
    ((end_volume : ℚ) - (start_volume : ℚ)) * fade_value)
  max 0 (min 100 current)

/-- The volumes applied to the player over a fade_radio_volume call, per
started loop.  The call clamps the end volume to the floor, computes the step
count from the duration, then starts BOTH loop bodies as threads; each loop
applies its volume at steps 0 .. steps (range(steps + 1)).  The first
component lists the first (floor-clamped) loop volumes, the second the
duplicate loop volumes. -/
def fade_radio_volume_applied (sqrtFn sinPiFn : ℚ → ℚ) (curve : FadeCurve)
    (background_volume start_volume end_volume : ℤ) (duration : ℚ) :
    List ℤ × List ℤ :=
  let endv := fadeClampedEnd background_volume end_volume
  let steps := fadeNumSteps duration
  ((List.range (steps.toNat + 1)).map (fun i : ℕ =>
      fadeLoop1Volume sqrtFn sinPiFn curve background_volume start_volume
        endv steps (i : ℤ)),
   (List.range (steps.toNat + 1)).map (fun i : ℕ =>
      fadeLoop2Volume sqrtFn sinPiFn curve start_volume endv steps (i : ℤ)))

/-! ## services/message_queue_manager.py -/

/-- Python runtime errors relevant to the playback loop tick. -/
inductive PyError where
  | typeError : PyError
  | attributeError : PyError
deriving DecidableEq, Repr

/-- State of MessageQueueManager relevant to end-of-message handling. -/
structure ManagerState where
  queue_state : QueueState
  current_playing_message : Option MessageQueueItem
  fade_duration : ℚ
deriving Repr

/-- Number of parameters of QueueService.register_message_end besides self,
from its definition in queue_service.py: def register_message_end(self,
message). -/
def register_message_end_param_count : ℕ := 1

/-- Number of positional arguments passed at the call site inside
MessageQueueManager._handle_message_end: register_message_end(
self.current_playing_message, fade_end_time). -/
def handle_message_end_call_arg_count : ℕ := 2

/-- _handle_message_end from message_queue_manager.py, under Python call
semantics: it sets end_time on the playing message to now + fade_duration,
then calls QueueService.register_message_end with two positional arguments.
Binding the arguments against the one-parameter signature raises TypeError
before the callee body runs; the exception propagates to the main loop, so
the steps after the call (switching back to the radio and clearing the
currently playing reference) never execute.  Returns the state as mutated so
far together with the raised error, if any. -/
def handle_message_end (ms : ManagerState) (now : ℚ) :
    ManagerState × Option PyError :=
  match ms.current_playing_message with
  | none => (ms, some PyError.attributeError)
  | some m =>
      let fade_end_time := now + ms.fade_duration
      let m2 := { m with end_time := some fade_end_time }
      let ms1 := { ms with current_playing_message := some m2 }
      if handle_message_end_call_arg_count = register_message_end_param_count
      then
        match register_message_end ms1.queue_state m2 with
        | none => (ms1, some PyError.attributeError)
        | some qs =>
            ({ ms1 with
                queue_state := qs
                current_playing_message := none }, none)
      else (ms1, some PyError.typeError)

/-! ## Concrete fixtures used by the closed evaluations below -/

/-- A priority-1 item with a one-minute interval, as stored in the queue
right after get_next_message selected it for playback (the selection marked
the stored item pending; the returned copy is identical except that its
is_pending flag is still false). -/
def fx1Item : MessageQueueItem :=
  { filename := "a"
    priority := 1
    interval := 1
    next_play_time := 0
    end_time := none
    is_pending := true
    last_played := none
    interval_seconds := none }

/-- The one-item queue state holding fx1Item while its copy is playing. -/
def fx1State : QueueState :=
  { message_queue := [fx1Item]
    last_end_time_by_priority := []
    last_global_end_time := none
    currently_playing := some { fx1Item with is_pending := false } }

/-- The playing copy of fx1Item at the moment the manager registers its end:
end_time has been set to the completion timestamp 100. -/
def fx1Message : MessageQueueItem :=
  { fx1Item with is_pending := false, end_time := some 100 }

/-- Reachable-state fixture: add a priority-1 and a priority-3 message, pick
the priority-1 one for playback, and add another priority-1 message while the
first one is playing. -/
def fx2StateA : QueueState := (add_message emptyQueueState "a" 1 1 0).1

/-- Second step of the fixture: the priority-3 message joins. -/
def fx2StateB : QueueState := (add_message fx2StateA "c" 3 1 0).1

/-- Third step: selection at time 10 picks the priority-1 message. -/
def fx2Select : QueueState × Option MessageQueueItem :=
  get_next_message fx2StateB 10

/-- Fourth step: a new priority-1 message is added at time 11, while the
selected message is still playing. -/
def fx2StateC : QueueState := (add_message fx2Select.1 "b" 1 1 11).1

/-- The playing copy at registration time, end_time set to 20 by the
playback loop. -/
def fx2Message : MessageQueueItem :=
  { (fx2Select.2.getD fx1Item) with end_time := some 20 }

/-- Final state of the fixture: the completion of the priority-1 message is
registered while the fresh priority-1 message is active. -/
def fx2Final : QueueState :=
  (register_message_end fx2StateC fx2Message).getD emptyQueueState

/-- Result of adding a message with a 0.1-minute interval to an empty queue
at time 0. -/
def fx3Result : QueueState × Option MessageQueueItem :=
  add_message emptyQueueState "a" 1 (1/10) 0

/-- Rotation fixture: one item at each of the priorities 1, 2 and 3. -/
def fx4StateA : QueueState :=
  (add_message ((add_message ((add_message emptyQueueState
    "a" 1 1 0).1) "b" 2 1 0).1) "c" 3 1 0).1

/-- First selection of the rotation fixture, at time 10. -/
def fx4Select1 : QueueState × Option MessageQueueItem :=
  get_next_message fx4StateA 10

/-- First completion: the selected copy ends at time 12. -/
def fx4StateB : QueueState :=
  (register_message_end fx4Select1.1
    { (fx4Select1.2.getD fx1Item) with end_time := some 12 }).getD
    emptyQueueState

/-- Second selection of the rotation fixture, at time 72. -/
def fx4Select2 : QueueState × Option MessageQueueItem :=
  get_next_message fx4StateB 72

/-- Second completion: the selected copy ends at time 75. -/
def fx4StateC : QueueState :=
  (register_message_end fx4Select2.1
    { (fx4Select2.2.getD fx1Item) with end_time := some 75 }).getD
    emptyQueueState

/-- Third selection of the rotation fixture, at time 135. -/
def fx4Select3 : QueueState × Option MessageQueueItem :=
  get_next_message fx4StateC 135

/-- Third completion: the selected copy ends at time 140. -/
def fx4StateD : QueueState :=
  (register_message_end fx4Select3.1
    { (fx4Select3.2.getD fx1Item) with end_time := some 140 }).getD
    emptyQueueState

/-- Manager fixture: the fx1 queue with its copy currently playing, default
fade duration 4 seconds. -/
def fx5Manager : ManagerState :=
  { queue_state := fx1State
    current_playing_message := some { fx1Item with is_pending := false }
    fade_duration := 4 }

/-- Snapshot fixture: a shutdown save written at time 0 holding one
priority-2 item with a 2-minute interval and stale scheduling fields. -/
def fx6Snapshot : SnapshotMetadata :=
  { save_timestamp := TsField.valid 0
    is_shutdown_save := true
    messages := [{ filename := "m"
                   priority := 2
                   interval := 2
                   interval_seconds := some 120
                   next_play_time := some 55
                   is_pending := some false
                   end_time := some 40
                   last_played := some 41 }] }

/-- Queue restored from fx6Snapshot at time 1000 (with the session marker
still present). -/
def fx6Loaded : List MessageQueueItem :=
  load_queue true (some (SaveData.wrapped fx6Snapshot)) 1000

/-- Serializer fixture for selection: one active ready item of priority 1
and one pending item of priority 2. -/
def fx7Queue : List MessageQueueItem :=
  [{ filename := "a"
     priority := 1
     interval := 1
     next_play_time := 5
     end_time := none
     is_pending := false
     last_played := none
     interval_seconds := none },
   { filename := "b"
     priority := 2
     interval := 1
     next_play_time := 3
     end_time := none
     is_pending := true
     last_played := none
     interval_seconds := none }]

/-- Queue state around fx7Queue. -/
def fx7State : QueueState :=
  { message_queue := fx7Queue
    last_end_time_by_priority := []
    last_global_end_time := none
    currently_playing := none }

/-- Fixture item builder: last_played and interval_seconds absent, the other
fields given. -/
def fxItem (filename : String) (priority : ℤ) (interval npt : ℚ)
    (et : Option ℚ) (pending : Bool) : MessageQueueItem :=
  { filename := filename, priority := priority, interval := interval,
    next_play_time := npt, end_time := et, is_pending := pending,
    last_played := none, interval_seconds := none }

/-- Fixture state builder. -/
def mkQS (q : List MessageQueueItem) (lebp : List (ℤ × ℚ)) (lg : Option ℚ)
    (cp : Option MessageQueueItem) : QueueState :=
  { message_queue := q, last_end_time_by_priority := lebp,
    last_global_end_time := lg, currently_playing := cp }

/-- Hand-computed result of registering the end of the fx1 playback. -/
def fx1Final : QueueState :=
  mkQS [fxItem "a" 1 1 160 (some 100) false] [(1, 100)] (some 100) none

/-- Hand-computed states of the fx2 chain. -/
def fx2ExpA : QueueState := mkQS [fxItem "a" 1 1 10 none false] [] none none

/-- Second fx2 state: the priority-3 message queued pending. -/
def fx2ExpB : QueueState :=
  mkQS [fxItem "a" 1 1 10 none false, fxItem "c" 3 1 30 none true] [] none none

/-- Result of the fx2 selection. -/
def fx2ExpSel : QueueState × Option MessageQueueItem :=
  (mkQS [fxItem "a" 1 1 10 none true, fxItem "c" 3 1 30 none true] [] none
    (some (fxItem "a" 1 1 10 none false)), some (fxItem "a" 1 1 10 none false))

/-- Fourth fx2 state: the fresh priority-1 message active during playback. -/
def fx2ExpC : QueueState :=
  mkQS [fxItem "a" 1 1 10 none true, fxItem "c" 3 1 30 none true,
    fxItem "b" 1 1 21 none false] [] none
    (some (fxItem "a" 1 1 10 none false))

/-- Final fx2 state: after the completion both the priority-3 tier (just
activated) and the fresh priority-1 item are active. -/
def fx2ExpFinal : QueueState :=
  mkQS [fxItem "a" 1 1 80 (some 20) true, fxItem "c" 3 1 80 none false,
    fxItem "b" 1 1 21 none false] [(1, 20)] (some 20) none

/-- Hand-computed states of the fx4 rotation chain. -/
def fx4ExpA : QueueState :=
  mkQS [fxItem "a" 1 1 10 none false, fxItem "b" 2 1 30 none true,
    fxItem "c" 3 1 30 none true] [] none none

/-- First fx4 selection result. -/
def fx4ExpSel1 : QueueState × Option MessageQueueItem :=
  (mkQS [fxItem "a" 1 1 10 none true, fxItem "b" 2 1 30 none true,
    fxItem "c" 3 1 30 none true] [] none
    (some (fxItem "a" 1 1 10 none false)), some (fxItem "a" 1 1 10 none false))

/-- fx4 state after the first completion: tier 2 activated. -/
def fx4ExpB : QueueState :=
  mkQS [fxItem "a" 1 1 72 (some 12) true, fxItem "b" 2 1 72 none false,
    fxItem "c" 3 1 30 none true] [(1, 12)] (some 12) none

/-- Second fx4 selection result. -/
def fx4ExpSel2 : QueueState × Option MessageQueueItem :=
  (mkQS [fxItem "a" 1 1 72 (some 12) true, fxItem "b" 2 1 72 none true,
    fxItem "c" 3 1 30 none true] [(1, 12)] (some 12)
    (some (fxItem "b" 2 1 72 none false)), some (fxItem "b" 2 1 72 none false))

/-- fx4 state after the second completion: tier 3 activated. -/
def fx4ExpC : QueueState :=
  mkQS [fxItem "a" 1 1 72 (some 12) true, fxItem "b" 2 1 135 (some 75) true,
    fxItem "c" 3 1 135 none false] [(1, 12), (2, 75)] (some 75) none

/-- Third fx4 selection result. -/
def fx4ExpSel3 : QueueState × Option MessageQueueItem :=
  (mkQS [fxItem "a" 1 1 72 (some 12) true, fxItem "b" 2 1 135 (some 75) true,
    fxItem "c" 3 1 135 none true] [(1, 12), (2, 75)] (some 75)
    (some (fxItem "c" 3 1 135 none false)),
   some (fxItem "c" 3 1 135 none false))

/-- fx4 state after the third completion: the rotation wrapped back to
tier 1. -/
def fx4ExpD : QueueState :=
  mkQS [fxItem "a" 1 1 200 (some 12) false, fxItem "b" 2 1 135 (some 75) true,
    fxItem "c" 3 1 200 (some 140) true]
    [(1, 12), (2, 75), (3, 140)] (some 140) none

/-- The item fx6Snapshot restores on a restart load at time 1000. -/
def fx6Item : MessageQueueItem :=
  { filename := "m", priority := 2, interval := 2, next_play_time := 1120,
    end_time := none, is_pending := true, last_played := none,
    interval_seconds := some 120 }

/-- The same item after _reset_expired_times made the only tier active. -/
def fx6Reset : MessageQueueItem := { fx6Item with is_pending := false }

/-- The item created by adding a 0.1-minute-interval message to an empty
queue at time 0. -/
def fx3Item : MessageQueueItem :=
  { filename := "a", priority := 1, interval := 1/10, next_play_time := 10,
    end_time := none, is_pending := false, last_played := none,
    interval_seconds := none }

/-- The state produced by that add. -/
def fx3Expected : QueueState := mkQS [fx3Item] [] none none

/-! ## Lemmas about the helper functions -/

theorem mem_pyFilter {P : α → Prop} [DecidablePred P] {l : List α} {a : α} :
    a ∈ pyFilter P l ↔ a ∈ l ∧ P a := by
  induction l with
  | nil => simp [pyFilter]
  | cons x xs ih =>
      by_cases h : P x
      · simp only [pyFilter, if_pos h, List.mem_cons, ih]
        constructor
        · rintro (rfl | ⟨ha, hp⟩)
          · exact ⟨Or.inl rfl, h⟩
          · exact ⟨Or.inr ha, hp⟩
        · rintro ⟨rfl | ha, hp⟩
          · exact Or.inl rfl
          · exact Or.inr ⟨ha, hp⟩
      · simp only [pyFilter, if_neg h, List.mem_cons, ih]
        constructor
        · rintro ⟨ha, hp⟩
          exact ⟨Or.inr ha, hp⟩
        · rintro ⟨rfl | ha, hp⟩
          · exact absurd hp h
          · exact ⟨ha, hp⟩

theorem pyFilter_eq_nil {P : α → Prop} [DecidablePred P] {l : List α} :
    pyFilter P l = [] ↔ ∀ a ∈ l, ¬ P a := by
  induction l with
  | nil => simp [pyFilter]
  | cons x xs ih =>
      by_cases h : P x
      · simp [pyFilter, if_pos h, h]
      · simp [pyFilter, if_neg h, ih, h]

theorem pyAny_eq_true {P : α → Prop} [DecidablePred P] {l : List α} :
    pyAny P l = true ↔ ∃ a ∈ l, P a := by
  induction l with
  | nil => simp [pyAny]
  | cons x xs ih =>
      by_cases h : P x
      · simp [pyAny, if_pos h, h]
      · simp [pyAny, if_neg h, ih, h]

theorem pyAny_eq_false {P : α → Prop} [DecidablePred P] {l : List α} :
    pyAny P l = false ↔ ∀ a ∈ l, ¬ P a := by
  rw [← Bool.not_eq_true, pyAny_eq_true]
  push_neg
  rfl

theorem pyFindFirst_eq_some {P : α → Prop} [DecidablePred P] {l : List α}
    {a : α} (h : pyFindFirst P l = some a) : a ∈ l ∧ P a := by
  induction l with
  | nil => simp [pyFindFirst] at h
  | cons x xs ih =>
      by_cases hx : P x
      · simp only [pyFindFirst, if_pos hx, Option.some.injEq] at h
        subst h
        exact ⟨List.mem_cons_self _ _, hx⟩
      · simp only [pyFindFirst, if_neg hx] at h
        rcases ih h with ⟨hm, hp⟩
        exact ⟨List.mem_cons_of_mem _ hm, hp⟩

theorem pyFindFirst_eq_none {P : α → Prop} [DecidablePred P] {l : List α} :
    pyFindFirst P l = none ↔ ∀ a ∈ l, ¬ P a := by
  induction l with
  | nil => simp [pyFindFirst]
  | cons x xs ih =>
      by_cases hx : P x
      · simp [pyFindFirst, if_pos hx, hx]
      · simp [pyFindFirst, if_neg hx, ih, hx]

theorem pyminAux_le_init (x : ℤ) (l : List ℤ) : pyminAux x l ≤ x := by
  induction l generalizing x with
  | nil => simp [pyminAux]
  | cons y ys ih =>
      calc pyminAux x (y :: ys) = pyminAux (min x y) ys := rfl
        _ ≤ min x y := ih (min x y)
        _ ≤ x := min_le_left _ _

theorem pyminAux_le_mem (x : ℤ) (l : List ℤ) : ∀ y ∈ l, pyminAux x l ≤ y := by
  induction l generalizing x with
  | nil => simp
  | cons z zs ih =>
      intro y hy
      rcases List.mem_cons.mp hy with rfl | hy
      · calc pyminAux x (y :: zs) = pyminAux (min x y) zs := rfl
          _ ≤ min x y := pyminAux_le_init _ _
          _ ≤ y := min_le_right _ _
      · exact ih (min x z) y hy

theorem pyminAux_mem (x : ℤ) (l : List ℤ) :
    pyminAux x l = x ∨ pyminAux x l ∈ l := by
  induction l generalizing x with
  | nil => simp [pyminAux]
  | cons y ys ih =>
      rcases ih (min x y) with h | h
      · rcases le_total x y with hxy | hxy
        · left
          rw [pyminAux, h, min_eq_left hxy]
        · right
          rw [pyminAux, h, min_eq_right hxy]
          exact List.mem_cons_self _ _
      · right
        exact List.mem_cons_of_mem _ h

theorem pymin_spec {l : List ℤ} {m : ℤ} (h : pymin l = some m) :
    m ∈ l ∧ ∀ y ∈ l, m ≤ y := by
  cases l with
  | nil => simp [pymin] at h
  | cons x xs =>
      simp only [pymin, Option.some.injEq] at h
      subst h
      constructor
      · rcases pyminAux_mem x xs with h | h
        · rw [h]; exact List.mem_cons_self _ _
        · exact List.mem_cons_of_mem _ h
      · intro y hy
        rcases List.mem_cons.mp hy with rfl | hy
        · exact pyminAux_le_init _ _
        · exact pyminAux_le_mem _ _ _ hy

theorem pymin_isSome {l : List ℤ} (h : l ≠ []) : ∃ m, pymin l = some m := by
  cases l with
  | nil => exact absurd rfl h
  | cons x xs => exact ⟨pyminAux x xs, rfl⟩

theorem mem_pyDedup [DecidableEq α] {l : List α} :
    ∀ {a : α}, a ∈ pyDedup l ↔ a ∈ l := by
  induction l with
  | nil => simp [pyDedup]
  | cons x xs ih =>
      intro a
      by_cases h : x ∈ pyDedup xs
      · rw [pyDedup, if_pos h]
        have hx : x ∈ xs := ih.mp h
        simp only [List.mem_cons, ih]
        constructor
        · exact Or.inr
        · rintro (rfl | ha)
          · exact hx
          · exact ha
      · rw [pyDedup, if_neg h]
        simp [List.mem_cons, ih]

theorem pyDedup_ne_nil [DecidableEq α] {l : List α} (h : l ≠ []) :
    pyDedup l ≠ [] := by
  intro hnil
  cases l with
  | nil => exact h rfl
  | cons x xs =>
      have : x ∈ pyDedup (x :: xs) := mem_pyDedup.mpr (List.mem_cons_self _ _)
      rw [hnil] at this
      exact List.not_mem_nil _ this

theorem mem_insertSorted {lt : α → α → Prop} [DecidableRel lt] {x a : α}
    {l : List α} : a ∈ insertSorted lt x l ↔ a = x ∨ a ∈ l := by
  induction l with
  | nil => simp [insertSorted]
  | cons y ys ih =>
      by_cases h : lt y x
      · simp only [insertSorted, if_pos h, List.mem_cons, ih]
        tauto
      · simp only [insertSorted, if_neg h, List.mem_cons]

theorem perm_insertSorted {lt : α → α → Prop} [DecidableRel lt] (x : α)
    (l : List α) : List.Perm (insertSorted lt x l) (x :: l) := by
  induction l with
  | nil => simp [insertSorted]
  | cons y ys ih =>
      by_cases h : lt y x
      · rw [insertSorted, if_pos h]
        exact List.Perm.trans (List.Perm.cons y ih) (List.Perm.swap x y ys)
      · rw [insertSorted, if_neg h]

theorem perm_stableSort {lt : α → α → Prop} [DecidableRel lt] (l : List α) :
    List.Perm (stableSort lt l) l := by
  induction l with
  | nil => simp [stableSort]
  | cons x xs ih =>
      exact List.Perm.trans (perm_insertSorted x _) (List.Perm.cons x ih)

theorem mem_stableSort {lt : α → α → Prop} [DecidableRel lt] {l : List α}
    {a : α} : a ∈ stableSort lt l ↔ a ∈ l :=
  (perm_stableSort l).mem_iff

theorem pairwise_insertSorted {lt : α → α → Prop} [DecidableRel lt]
    (hasymm : ∀ a b, lt a b → ¬ lt b a)
    (hneg : ∀ a b c, ¬ lt b a → ¬ lt c b → ¬ lt c a)
    {x : α} {l : List α} (hl : List.Pairwise (fun a b => ¬ lt b a) l) :
    List.Pairwise (fun a b => ¬ lt b a) (insertSorted lt x l) := by
  induction l with
  | nil => simp [insertSorted]
  | cons y ys ih =>
      rcases List.pairwise_cons.mp hl with ⟨hy, hys⟩
      by_cases h : lt y x
      · rw [insertSorted, if_pos h]
        refine List.pairwise_cons.mpr ⟨?_, ih hys⟩
        intro z hz
        rcases mem_insertSorted.mp hz with rfl | hz
        · exact hasymm _ _ h
        · exact hy z hz
      · rw [insertSorted, if_neg h]
        refine List.pairwise_cons.mpr ⟨?_, hl⟩
        intro z hz
        rcases List.mem_cons.mp hz with rfl | hz
        · exact h
        · exact hneg x y z h (hy z hz)

theorem pairwise_stableSort {lt : α → α → Prop} [DecidableRel lt]
    (hasymm : ∀ a b, lt a b → ¬ lt b a)
    (hneg : ∀ a b c, ¬ lt b a → ¬ lt c b → ¬ lt c a) (l : List α) :
    List.Pairwise (fun a b => ¬ lt b a) (stableSort lt l) := by
  induction l with
  | nil => simp [stableSort]
  | cons x xs ih => exact pairwise_insertSorted hasymm hneg ih

theorem stableSort_head_min {lt : α → α → Prop} [DecidableRel lt]
    (hasymm : ∀ a b, lt a b → ¬ lt b a)
    (hneg : ∀ a b c, ¬ lt b a → ¬ lt c b → ¬ lt c a)
    {l : List α} {x : α} {rest : List α} (h : stableSort lt l = x :: rest) :
    x ∈ l ∧ ∀ y ∈ l, ¬ lt y x := by
  have hperm := @perm_stableSort _ lt _ l
  rw [h] at hperm
  have hx : x ∈ l := hperm.mem_iff.mp (List.mem_cons_self _ _)
  have hpw := pairwise_stableSort hasymm hneg l
  rw [h, List.pairwise_cons] at hpw
  refine ⟨hx, ?_⟩
  intro y hy
  have : y ∈ x :: rest := hperm.mem_iff.mpr hy
  rcases List.mem_cons.mp this with rfl | hyr
  · intro hlt
    exact hasymm _ _ hlt hlt
  · exact hpw.1 y hyr

theorem pairwise_le_sortedInt (l : List ℤ) :
    List.Pairwise (fun a b : ℤ => a ≤ b)
      (stableSort (fun a b : ℤ => a < b) l) := by
  have h := @pairwise_stableSort ℤ (fun a b : ℤ => a < b) _
    (fun a b hab => not_lt.mpr (le_of_lt hab))
    (fun a b c hba hcb =>
      not_lt.mpr (le_trans (not_lt.mp hba) (not_lt.mp hcb))) l
  exact h.imp (fun hab => not_lt.mp hab)

theorem pyFindFirst_sorted_least {p : ℤ} {l : List ℤ}
    (hs : List.Pairwise (fun a b : ℤ => a ≤ b) l) {np : ℤ}
    (h : pyFindFirst (fun q => q > p) l = some np) :
    np ∈ l ∧ np > p ∧ ∀ r ∈ l, r > p → np ≤ r := by
  induction l with
  | nil => simp [pyFindFirst] at h
  | cons x xs ih =>
      rcases List.pairwise_cons.mp hs with ⟨hx, hxs⟩
      by_cases hpx : x > p
      · rw [pyFindFirst, if_pos hpx, Option.some.injEq] at h
        subst h
        refine ⟨List.mem_cons_self _ _, hpx, ?_⟩
        intro r hr _
        rcases List.mem_cons.mp hr with rfl | hr
        · exact le_refl _
        · exact hx r hr
      · rw [pyFindFirst, if_neg hpx] at h
        rcases ih hxs h with ⟨hm, hgt, hleast⟩
        refine ⟨List.mem_cons_of_mem _ hm, hgt, ?_⟩
        intro r hr hrp
        rcases List.mem_cons.mp hr with rfl | hr
        · exact absurd hrp hpx
        · exact hleast r hr hrp

theorem find_next_priority_isSome {queue : List MessageQueueItem} {p : ℤ}
    (h : queue ≠ []) : ∃ np, find_next_priority queue p = some np := by
  have hmap : queue.map (·.priority) ≠ [] := by
    intro hnil
    exact h (List.map_eq_nil_iff.mp hnil)
  have hA : pyDedup (queue.map (·.priority)) ≠ [] := pyDedup_ne_nil hmap
  rw [find_next_priority]
  simp only [if_neg hA]
  cases hf : pyFindFirst (fun q => q > p)
      (stableSort (fun a b : ℤ => a < b) (pyDedup (queue.map (·.priority)))) with
  | some q => exact ⟨q, rfl⟩
  | none =>
      rcases pymin_isSome hA with ⟨m, hm⟩
      exact ⟨m, hm⟩

theorem find_next_priority_spec {queue : List MessageQueueItem} {p np : ℤ}
    (h : find_next_priority queue p = some np) :
    np ∈ queue.map (·.priority) ∧
    ((∃ r ∈ queue.map (·.priority), r > p) →
      np > p ∧ ∀ r ∈ queue.map (·.priority), r > p → np ≤ r) ∧
    ((∀ r ∈ queue.map (·.priority), ¬ r > p) →
      ∀ r ∈ queue.map (·.priority), np ≤ r) := by
  by_cases hA : pyDedup (queue.map (·.priority)) = []
  · rw [find_next_priority] at h
    simp only [if_pos hA] at h
    exact absurd h (by simp)
  · rw [find_next_priority] at h
    simp only [if_neg hA] at h
    have hmemS : ∀ a : ℤ, a ∈ stableSort (fun a b : ℤ => a < b)
        (pyDedup (queue.map (·.priority))) ↔ a ∈ queue.map (·.priority) := by
      intro a
      rw [mem_stableSort, mem_pyDedup]
    cases hf : pyFindFirst (fun q => q > p)
        (stableSort (fun a b : ℤ => a < b)
          (pyDedup (queue.map (·.priority)))) with
    | some q =>
        rw [hf, Option.some.injEq] at h
        rw [h] at hf
        rcases pyFindFirst_sorted_least (pairwise_le_sortedInt _) hf with
          ⟨hm, hgt, hleast⟩
        refine ⟨(hmemS np).mp hm, ?_, ?_⟩
        · intro _
          refine ⟨hgt, ?_⟩
          intro r hr hrp
          exact hleast r ((hmemS r).mpr hr) hrp
        · intro hnone
          exact absurd hgt (hnone np ((hmemS np).mp hm))
    | none =>
        rw [hf] at h
        rcases pymin_spec h with ⟨hm, hmin⟩
        have hnp : np ∈ queue.map (·.priority) := mem_pyDedup.mp hm
        refine ⟨hnp, ?_, ?_⟩
        · rintro ⟨r, hr, hrp⟩
          have := pyFindFirst_eq_none.mp hf r ((hmemS r).mpr hr)
          exact absurd hrp this
        · intro _ r hr
          exact hmin r (mem_pyDedup.mpr hr)

theorem registerEndEtapa1_found {message : MessageQueueItem} {t : ℚ}
    {queue : List MessageQueueItem} {it0 : MessageQueueItem}
    (hmem : it0 ∈ queue)
    (hfn : it0.filename = message.filename)
    (hpr : it0.priority = message.priority)
    (huniq : ∀ it ∈ queue, it.filename = message.filename →
      it.priority = message.priority → it = it0)
    (hint : message.interval > 0) :
    (registerEndEtapa1 message t queue).2 = true ∧
    { it0 with
       next_play_time := t + message.interval * 60
       end_time := some t } ∈ (registerEndEtapa1 message t queue).1 ∧
    ∀ it ∈ (registerEndEtapa1 message t queue).1,
      it = { it0 with
              next_play_time := t + message.interval * 60
              end_time := some t } ∨ it ∈ queue := by
  induction queue with
  | nil => cases hmem
  | cons x xs ih =>
      by_cases hx : x.filename = message.filename ∧
          x.priority = message.priority
      · have hx0 : x = it0 := huniq x (List.mem_cons_self _ _) hx.1 hx.2
        subst hx0
        rw [registerEndEtapa1, if_pos hx, if_pos hint]
        refine ⟨rfl, List.mem_cons_self _ _, ?_⟩
        intro it hit
        rcases List.mem_cons.mp hit with rfl | hit
        · exact Or.inl rfl
        · exact Or.inr (List.mem_cons_of_mem _ hit)
      · have hit0 : it0 ∈ xs := by
          rcases List.mem_cons.mp hmem with rfl | hm
          · exact absurd ⟨hfn, hpr⟩ hx
          · exact hm
        have huniq' : ∀ it ∈ xs, it.filename = message.filename →
            it.priority = message.priority → it = it0 := by
          intro it hit h1 h2
          exact huniq it (List.mem_cons_of_mem _ hit) h1 h2
        rcases ih hit0 huniq' with ⟨hfound, hmem', hall⟩
        rw [registerEndEtapa1, if_neg hx]
        refine ⟨hfound, List.mem_cons_of_mem _ hmem', ?_⟩
        intro it hit
        rcases List.mem_cons.mp hit with rfl | hit
        · exact Or.inr (List.mem_cons_self _ _)
        · rcases hall it hit with h | h
          · exact Or.inl h
          · exact Or.inr (List.mem_cons_of_mem _ h)

theorem registerEndEtapa2_mem {queue : List MessageQueueItem} {t : ℚ}
    {np : ℤ} (hpresent : np ∈ queue.map (·.priority))
    {x : MessageQueueItem} (hx : x ∈ queue) :
    (if (if x.priority = np then
          { x with
             next_play_time := t + x.interval * 60
             is_pending := false }
        else x).priority > np then
      { (if x.priority = np then
          { x with
             next_play_time := t + x.interval * 60
             is_pending := false }
         else x) with is_pending := true }
     else (if x.priority = np then
          { x with
             next_play_time := t + x.interval * 60
             is_pending := false }
        else x)) ∈ registerEndEtapa2 queue t (some np) := by
  have hguard : pyAny (fun msg => msg.priority = np) queue = true := by
    rw [pyAny_eq_true]
    rcases List.mem_map.mp hpresent with ⟨y, hy, hyp⟩
    exact ⟨y, hy, hyp⟩
  rw [registerEndEtapa2]
  simp only [hguard, if_true]
  exact List.mem_map_of_mem _ (List.mem_map_of_mem _ hx)

theorem registerEndEtapa2_flags {queue : List MessageQueueItem} {t : ℚ}
    {np : ℤ} (hpresent : np ∈ queue.map (·.priority)) :
    ∀ it ∈ registerEndEtapa2 queue t (some np),
      (it.priority = np → it.is_pending = false) ∧
      (it.priority > np → it.is_pending = true) := by
  have hguard : pyAny (fun msg => msg.priority = np) queue = true := by
    rw [pyAny_eq_true]
    rcases List.mem_map.mp hpresent with ⟨y, hy, hyp⟩
    exact ⟨y, hy, hyp⟩
  intro it hit
  rw [registerEndEtapa2] at hit
  simp only [hguard, if_true] at hit
  rcases List.mem_map.mp hit with ⟨z, hz, hzg⟩
  rcases List.mem_map.mp hz with ⟨x, hxq, hxf⟩
  by_cases hxp : x.priority = np
  · have hzval : z = { x with
        next_play_time := t + x.interval * 60
        is_pending := false } := by
      rw [← hxf, if_pos hxp]
    have hzpr : z.priority = x.priority := by rw [hzval]
    have : ¬ z.priority > np := by
      rw [hzpr, hxp]
      exact lt_irrefl np
    have hitz : it = z := by rw [← hzg, if_neg this]
    constructor
    · intro _
      rw [hitz, hzval]
    · intro hgt
      rw [hitz] at hgt
      exact absurd hgt this
  · have hzval : z = x := by rw [← hxf, if_neg hxp]
    by_cases hgt : z.priority > np
    · have hitval : it = { z with is_pending := true } := by
        rw [← hzg, if_pos hgt]
      constructor
      · intro hp
        rw [hitval] at hp
        simp only at hp
        rw [hzval] at hgt hp
        exact absurd hp hxp
      · intro _
        rw [hitval]
    · have hitval : it = z := by rw [← hzg, if_neg hgt]
      constructor
      · intro hp
        rw [hitval, hzval] at hp
        exact absurd hp hxp
      · intro hg
        rw [hitval] at hg
        exact absurd hg hgt

theorem pyLookup_append [DecidableEq κ] (key : κ) (a b : List (κ × β)) :
    pyLookup key (a ++ b) =
      match pyLookup key a with
      | some v => some v
      | none => pyLookup key b := by
  induction a with
  | nil => simp [pyLookup]
  | cons x xs ih =>
      obtain ⟨k, v⟩ := x
      by_cases h : k = key
      · simp [pyLookup, if_pos h]
      · simp only [List.cons_append, pyLookup, if_neg h]
        exact ih

theorem latestMessages_acc (queue : List MessageQueueItem)
    (hpw : List.Pairwise (fun a b => a.filename ≠ b.filename) queue) :
    ∀ acc : List (String × MessageQueueItem),
    (∀ it ∈ queue, pyLookup it.filename acc = none) →
    queue.foldl (fun m item =>
      match pyLookup item.filename m with
      | some cur =>
          if item.next_play_time < cur.next_play_time then
            pyReplace item.filename item m
          else m
      | none => m ++ [(item.filename, item)]) acc =
    acc ++ queue.map (fun it => (it.filename, it)) := by
  induction queue with
  | nil => intro acc _; simp
  | cons x xs ih =>
      intro acc hdisj
      rcases List.pairwise_cons.mp hpw with ⟨hx, hxs⟩
      have hnone : pyLookup x.filename acc = none :=
        hdisj x (List.mem_cons_self _ _)
      rw [List.foldl_cons]
      have hstep :
          (match pyLookup x.filename acc with
           | some cur =>
               if x.next_play_time < cur.next_play_time then
                 pyReplace x.filename x acc
               else acc
           | none => acc ++ [(x.filename, x)]) =
          acc ++ [(x.filename, x)] := by
        rw [hnone]
      rw [hstep]
      have hdisj' : ∀ it ∈ xs,
          pyLookup it.filename (acc ++ [(x.filename, x)]) = none := by
        intro it hit
        rw [pyLookup_append, hdisj it (List.mem_cons_of_mem _ hit)]
        have hne : x.filename ≠ it.filename := hx it hit
        simp [pyLookup, hne]
      rw [ih hxs (acc ++ [(x.filename, x)]) hdisj']
      simp

theorem latestMessages_of_unique {queue : List MessageQueueItem}
    (hpw : List.Pairwise (fun a b => a.filename ≠ b.filename) queue) :
    latestMessages queue = queue.map (fun it => (it.filename, it)) := by
  have h := latestMessages_acc queue hpw [] (by intro it _; rfl)
  simp only [List.nil_append] at h
  exact h

theorem pyLookup_map_self {queue : List MessageQueueItem}
    (hpw : List.Pairwise (fun a b => a.filename ≠ b.filename) queue)
    {it : MessageQueueItem} (hit : it ∈ queue) :
    pyLookup it.filename (queue.map fun x => (x.filename, x)) = some it := by
  induction queue with
  | nil => cases hit
  | cons x xs ih =>
      rcases List.pairwise_cons.mp hpw with ⟨hx, hxs⟩
      rcases List.mem_cons.mp hit with rfl | hmem
      · simp [pyLookup]
      · have hne : x.filename ≠ it.filename := hx it hmem
        simp only [List.map_cons, pyLookup, if_neg hne]
        exact ih hxs hmem

theorem identify_duplicates_of_unique {queue : List MessageQueueItem}
    (hpw : List.Pairwise (fun a b => a.filename ≠ b.filename) queue) :
    identify_duplicates queue = queue := by
  by_cases hq : queue = []
  · rw [identify_duplicates, if_pos hq]
  · rw [identify_duplicates, if_neg hq]
    have hmap : ∀ it ∈ queue,
        (match pyLookup it.filename (latestMessages queue) with
         | some latest_item =>
             if it ≠ latest_item ∧ it.is_pending = false then
               { it with is_pending := true }
             else it
         | none => it) = it := by
      intro it hit
      rw [latestMessages_of_unique hpw, pyLookup_map_self hpw hit]
      have hcond : ¬ (it ≠ it ∧ it.is_pending = false) := by
        rintro ⟨hne, _⟩
        exact hne rfl
      simp only [if_neg hcond]
    calc queue.map _ = queue.map id := List.map_congr_left hmap
      _ = queue := List.map_id queue

theorem pyFilter_pyFilter {P Q : α → Prop} [DecidablePred P] [DecidablePred Q]
    (l : List α) :
    pyFilter Q (pyFilter P l) = pyFilter (fun x => P x ∧ Q x) l := by
  induction l with
  | nil => rfl
  | cons x xs ih =>
      by_cases hp : P x
      · by_cases hq : Q x
        · rw [pyFilter, if_pos hp, pyFilter, if_pos hq, pyFilter,
            if_pos ⟨hp, hq⟩, ih]
        · rw [pyFilter, if_pos hp, pyFilter, if_neg hq, pyFilter,
            if_neg (fun h => hq h.2), ih]
      · rw [pyFilter, if_neg hp, pyFilter, if_neg (fun h => hp h.1), ih]

theorem pairwise_filename_ne {queue : List MessageQueueItem}
    (hpw : List.Pairwise (fun a b => a.filename ≠ b.filename) queue)
    {a b : MessageQueueItem} (ha : a ∈ queue) (hb : b ∈ queue) (hne : a ≠ b) :
    a.filename ≠ b.filename := by
  have hsym : Symmetric (fun x y : MessageQueueItem =>
      x.filename ≠ y.filename) := by
    intro x y h
    exact fun he => h he.symm
  exact List.Pairwise.forall hsym hpw ha hb hne

/-- C5: on a queue without duplicate filenames, get_next_message returns the
item of numerically lowest priority among all non-pending items whose
next_play_time has passed, breaking ties by earliest next_play_time; it
returns none exactly when no such item exists (in particular on an empty
queue, without raising); and its only mutation of the queue is setting the
selected item is_pending flag to true. -/
theorem get_next_message_selects_lowest_ready (s : QueueState) (now : ℚ)
    (hpw : List.Pairwise (fun a b => a.filename ≠ b.filename)
      s.message_queue) :
    ((get_next_message s now).2 = none ↔
      eligibleMessages s.message_queue now = []) ∧
    ∀ m, (get_next_message s now).2 = some m →
      m ∈ eligibleMessages s.message_queue now ∧
      (∀ it ∈ eligibleMessages s.message_queue now,
        m.priority ≤ it.priority) ∧
      (∀ it ∈ eligibleMessages s.message_queue now,
        it.priority = m.priority → m.next_play_time ≤ it.next_play_time) ∧
      (get_next_message s now).1.message_queue =
        s.message_queue.map (fun it =>
          if it = m then { it with is_pending := true } else it) := by
  have hid := identify_duplicates_of_unique hpw
  simp only [get_next_message, hid]
  by_cases hq : s.message_queue = []
  · rw [if_pos hq]
    constructor
    · rw [hq]
      simp [eligibleMessages, pyFilter]
    · intro m hm
      simp at hm
  · rw [if_neg hq]
    by_cases hA : pyFilter (fun m => m.is_pending = false) s.message_queue = []
    · rw [if_pos hA]
      have hE : eligibleMessages s.message_queue now = [] := by
        rw [eligibleMessages, ← pyFilter_pyFilter, hA]
        rfl
      constructor
      · simp [hE]
      · intro m hm
        simp at hm
    · rw [if_neg hA]
      have hRE : pyFilter (fun m => now - m.next_play_time ≥ 0)
          (pyFilter (fun m => m.is_pending = false) s.message_queue) =
          eligibleMessages s.message_queue now := by
        rw [pyFilter_pyFilter]
        rfl
      by_cases hR : pyFilter (fun m => now - m.next_play_time ≥ 0)
          (pyFilter (fun m => m.is_pending = false) s.message_queue) = []
      · rw [if_pos hR]
        have hE : eligibleMessages s.message_queue now = [] := by
          rw [← hRE, hR]
        constructor
        · simp [hE]
        · intro m hm
          simp at hm
      · rw [if_neg hR]
        -- the ready list is nonempty: name it and its minimum priority
        have hmapne : (pyFilter (fun m => now - m.next_play_time ≥ 0)
            (pyFilter (fun m => m.is_pending = false)
              s.message_queue)).map (·.priority) ≠ [] := by
          intro hnil
          exact hR (List.map_eq_nil_iff.mp hnil)
        rcases pymin_isSome hmapne with ⟨mp, hmp⟩
        rw [hmp]
        simp only [Option.getD_some]
        have hEne : eligibleMessages s.message_queue now ≠ [] := by
          rw [← hRE]
          exact hR
        -- the minimum-priority sublist is nonempty
        have hmpmem := (pymin_spec hmp).1
        rcases List.mem_map.mp hmpmem with ⟨y, hyR, hyp⟩
        have hHne : pyFilter (fun m => m.priority = mp)
            (pyFilter (fun m => now - m.next_play_time ≥ 0)
              (pyFilter (fun m => m.is_pending = false)
                s.message_queue)) ≠ [] := by
          intro hnil
          have : y ∈ pyFilter (fun m => m.priority = mp)
              (pyFilter (fun m => now - m.next_play_time ≥ 0)
                (pyFilter (fun m => m.is_pending = false)
                  s.message_queue)) := mem_pyFilter.mpr ⟨hyR, hyp⟩
          rw [hnil] at this
          exact List.not_mem_nil _ this
        -- the list the head is taken from, in both length cases
        set H := pyFilter (fun m => m.priority = mp)
            (pyFilter (fun m => now - m.next_play_time ≥ 0)
              (pyFilter (fun m => m.is_pending = false)
                s.message_queue)) with hHdef
        have hmemH2 : ∀ a, a ∈ (if H.length > 1 then
            stableSort (fun a b =>
              a.next_play_time < b.next_play_time) H else H) ↔ a ∈ H := by
          intro a
          by_cases hlen : H.length > 1
          · rw [if_pos hlen, mem_stableSort]
          · rw [if_neg hlen]
        have hH2ne : (if H.length > 1 then
            stableSort (fun a b =>
              a.next_play_time < b.next_play_time) H else H) ≠ [] := by
          intro hnil
          rcases List.exists_mem_of_ne_nil H hHne with ⟨a, ha⟩
          have := (hmemH2 a).mpr ha
          rw [hnil] at this
          exact List.not_mem_nil _ this
        rcases List.exists_cons_of_ne_nil hH2ne with ⟨sel, rest, hcons⟩
        rw [hcons]
        simp only []
        -- facts about the selected element
        have hselH : sel ∈ H := by
          rw [← hmemH2 sel, hcons]
          exact List.mem_cons_self _ _
        have hselR : sel ∈ pyFilter (fun m => now - m.next_play_time ≥ 0)
            (pyFilter (fun m => m.is_pending = false) s.message_queue) :=
          (mem_pyFilter.mp hselH).1
        have hselp : sel.priority = mp := (mem_pyFilter.mp hselH).2
        have hselE : sel ∈ eligibleMessages s.message_queue now := by
          rw [← hRE]
          exact hselR
        have hselq : sel ∈ s.message_queue :=
          (mem_pyFilter.mp (mem_pyFilter.mp hselR).1).1
        have htie : ∀ it ∈ eligibleMessages s.message_queue now,
            it.priority = sel.priority →
            sel.next_play_time ≤ it.next_play_time := by
          intro it hitE hitp
          have hitH : it ∈ H := by
            rw [hHdef]
            refine mem_pyFilter.mpr ⟨?_, ?_⟩
            · rw [hRE]
              exact hitE
            · rw [hitp, hselp]
          by_cases hlen : H.length > 1
          · have hsort : stableSort (fun a b : MessageQueueItem =>
                a.next_play_time < b.next_play_time) H = sel :: rest := by
              rw [← hcons, if_pos hlen]
            have hmin := @stableSort_head_min _
              (fun a b : MessageQueueItem =>
                a.next_play_time < b.next_play_time) _
              (fun a b hab => not_lt.mpr (le_of_lt hab))
              (fun a b c hba hcb =>
                not_lt.mpr (le_trans (not_lt.mp hba) (not_lt.mp hcb)))
              _ _ _ hsort
            exact not_lt.mp (hmin.2 it hitH)
          · have hHsel : H = sel :: rest := by
              rw [← hcons, if_neg hlen]
            have hrest : rest = [] := by
              rw [hHsel] at hlen
              simp only [List.length_cons, gt_iff_lt, not_lt] at hlen
              have hlen0 : rest.length = 0 := by omega
              exact List.eq_nil_of_length_eq_zero hlen0
            rw [hHsel, hrest] at hitH
            rcases List.mem_cons.mp hitH with rfl | hfalse
            · exact le_refl _
            · exact absurd hfalse (List.not_mem_nil _)
        refine ⟨?_, ?_⟩
        · constructor
          · intro hfalse
            simp at hfalse
          · intro hfalse
            exact absurd hfalse hEne
        · intro m hm
          rw [Option.some.injEq] at hm
          subst hm
          refine ⟨hselE, ?_, htie, ?_⟩
          · intro it hitE
            rw [hselp]
            have hitR : it ∈ pyFilter (fun m => now - m.next_play_time ≥ 0)
                (pyFilter (fun m => m.is_pending = false) s.message_queue) := by
              rw [hRE]
              exact hitE
            exact (pymin_spec hmp).2 it.priority
              (List.mem_map_of_mem _ hitR)
          · apply List.map_congr_left
            intro it hit
            by_cases hits : it = sel
            · subst hits
              rw [if_pos ⟨rfl, rfl, rfl⟩, if_pos rfl]
            · rw [if_neg ?_, if_neg hits]
              rintro ⟨h1, _, _⟩
              exact pairwise_filename_ne hpw hit hselq hits h1

/-- C3: for a snapshot carrying the metadata wrapper, the restart decision of
_detect_program_restart_v2 follows exactly the spec precedence: a shutdown
save forces a restart; otherwise a missing session marker forces a restart;
otherwise a save gap above 60 seconds forces a restart; otherwise the load is
a live reload. -/
theorem detect_restart_follows_spec_precedence (session_was_active : Bool)
    (md : SnapshotMetadata) (now : ℚ) :
    detect_program_restart_v2 session_was_active md now =
      restartDecisionSpec md.is_shutdown_save session_was_active
        (time_gap now md.save_timestamp) := rfl

theorem loadItems_restart_mem {now : ℚ} {ds : List SerializedItem}
    {l : List MessageQueueItem} (h : loadItems true now ds = some l) :
    ∀ it ∈ l,
      (∃ sec : ℤ, it.interval_seconds = some sec ∧
        it.next_play_time = now + (sec : ℚ)) ∧
      it.is_pending = decide (it.priority > 1) ∧
      it.last_played = none ∧ it.end_time = none := by
  induction ds generalizing l with
  | nil =>
      rw [loadItems, Option.some.injEq] at h
      subst h
      intro it hit
      cases hit
  | cons d ds ih =>
      rw [loadItems] at h
      cases hrec : loadItems true now ds with
      | none => rw [hrec] at h; simp [load_item] at h
      | some rest =>
          rw [hrec] at h
          simp only [load_item, if_true, Option.some.injEq] at h
          subst h
          intro it hit
          rcases List.mem_cons.mp hit with rfl | hit
          · refine ⟨⟨d.interval_seconds.getD (pyint (d.interval * 60)),
              rfl, rfl⟩, ?_, rfl, rfl⟩
            simp [mkMessageQueueItem]
          · exact ih hrec it hit

/-- C4: whenever load_queue decides the process restarted, including the bare
array snapshot format which always restarts, every loaded item has
next_play_time = now + interval_seconds, is_pending = (priority > 1), and
cleared last_played and end_time. -/
theorem load_queue_restart_resets (session_was_active : Bool)
    (data : Option SaveData) (now : ℚ)
    (hrestart : (∃ items, data = some (SaveData.legacyList items)) ∨
      (∃ md, data = some (SaveData.wrapped md) ∧
        detect_program_restart_v2 session_was_active md now = true)) :
    ∀ it ∈ load_queue session_was_active data now,
      (∃ sec : ℤ, it.interval_seconds = some sec ∧
        it.next_play_time = now + (sec : ℚ)) ∧
      it.is_pending = decide (it.priority > 1) ∧
      it.last_played = none ∧ it.end_time = none := by
  rcases hrestart with ⟨items, hdata⟩ | ⟨md, hdata, hdet⟩
  · subst hdata
    rw [load_queue]
    cases hl : loadItems true now items with
    | none => simp
    | some l =>
        simp only [Option.getD_some]
        exact loadItems_restart_mem hl
  · subst hdata
    rw [load_queue]
    rw [hdet]
    cases hl : loadItems true now md.messages with
    | none => simp
    | some l =>
        simp only [Option.getD_some]
        exact loadItems_restart_mem hl

/-- C9: on a tick where a message is playing and the player reports end of
media, _handle_message_end sets the end timestamp now + fade_duration on the
playing message and then calls register_message_end with two positional
arguments against its one-parameter signature, so Python raises TypeError
before the callee runs: the completion is never registered in the queue and
the currently playing reference is never cleared. -/
theorem handle_message_end_raises_type_error (ms : ManagerState) (now : ℚ)
    (m : MessageQueueItem) (hm : ms.current_playing_message = some m) :
    (handle_message_end ms now).2 = some PyError.typeError ∧
    (handle_message_end ms now).1.current_playing_message =
      some { m with end_time := some (now + ms.fade_duration) } ∧
    (handle_message_end ms now).1.queue_state = ms.queue_state := by
  have hne : ¬ (handle_message_end_call_arg_count =
      register_message_end_param_count) := by
    rw [handle_message_end_call_arg_count, register_message_end_param_count]
    decide
  simp only [handle_message_end, hm, if_neg hne]
  refine ⟨?_, ?_, ?_⟩ <;> trivial

/-- C6 (amended): adding a message whose priority is at most every existing
priority, in particular adding to an empty queue, activates the new item
immediately (is_pending = false); but its next_play_time is the fixed
now + 10 seconds, not now + interval_seconds as the original claim stated
(see the counterexample). -/
theorem add_top_priority_schedules_plus_ten (s : QueueState)
    (filename : String) (priority : ℤ) (interval : ℚ) (now : ℚ)
    (hdup : pyAny (fun item => item.filename = filename)
      s.message_queue = false)
    (htop : topPriorityBranch priority (s.message_queue.map (·.priority))) :
    ∃ m, (add_message s filename priority interval now).2 = some m ∧
      m.is_pending = false ∧ m.next_play_time = now + 10 ∧
      m ∈ (add_message s filename priority interval now).1.message_queue := by
  have hnd : ¬ (pyAny (fun item => item.filename = filename)
      s.message_queue = true) := by
    rw [hdup]
    exact Bool.false_ne_true
  simp only [add_message, if_neg hnd, if_pos htop]
  refine ⟨_, rfl, rfl, rfl, ?_⟩
  rw [heappush]
  exact List.mem_append_right _ (List.mem_cons_self _ _)

/-- C8: every step of the first fade loop in fade_radio_volume clamps the
applied volume to at least background_volume, but the function also starts a
second stale duplicate loop whose clamp is only max(0, min(100, v)); with a
start volume below the floor that loop applies a volume below
background_volume (volume 0 at its first step here), violating the fade
floor the enclosing function promises. -/
theorem fade_floor_holds_first_loop_but_not_duplicate :
    (∀ (sqrtFn sinPiFn : ℚ → ℚ) (curve : FadeCurve)
      (background_volume start_volume end_volume steps i : ℤ),
      background_volume ≤ fadeLoop1Volume sqrtFn sinPiFn curve
        background_volume start_volume end_volume steps i) ∧
    (0 : ℤ) ∈ (fade_radio_volume_applied (fun _ => 0) (fun _ => 0)
      FadeCurve.linear 2 0 0 4).2 ∧
    ¬ (∀ v ∈ (fade_radio_volume_applied (fun _ => 0) (fun _ => 0)
      FadeCurve.linear 2 0 0 4).2, (2 : ℤ) ≤ v) := by
  have hmem : (0 : ℤ) ∈ (fade_radio_volume_applied (fun _ => 0) (fun _ => 0)
      FadeCurve.linear 2 0 0 4).2 := by
    have hsteps : fadeNumSteps 4 = 400 := by
      rw [fadeNumSteps, fade_steps_per_second, pyint]
      norm_num
    have hval : fadeLoop2Volume (fun _ => 0) (fun _ => 0) FadeCurve.linear 0
        (fadeClampedEnd 2 0) 400 (((0 : ℕ) : ℤ)) = 0 := by
      rw [fadeLoop2Volume, calculate_fade_value, fadeClampedEnd]
      norm_num [pyint]
    have h0 : (0 : ℕ) ∈ List.range ((400 : ℤ).toNat + 1) :=
      List.mem_range.mpr (by decide)
    simp only [fade_radio_volume_applied, hsteps]
    refine List.mem_map.mpr ⟨(0 : ℕ), h0, ?_⟩
    simpa using hval
  refine ⟨?_, hmem, ?_⟩
  · intro sqrtFn sinPiFn curve bg sv ev steps i
    exact le_max_left _ _
  · intro hall
    have := hall 0 hmem
    norm_num at this

/-- C2 (amended): after any register_message_end on a state whose queue is
nonempty after the rescheduling pass, a next priority tier np exists and in
the resulting queue every item of tier np is active while every item of a
priority strictly greater than np is pending.  (The original claim, that ALL
non-pending items always share one priority, fails on reachable states: see
the counterexample, where an add during playback leaves a second tier
active.) -/
theorem register_end_activates_single_next_tier (s : QueueState)
    (message : MessageQueueItem) (t : ℚ) (s' : QueueState)
    (hend : message.end_time = some t)
    (hs' : register_message_end s message = some s') :
    ∃ q1, s'.message_queue =
        registerEndEtapa2 q1 t (find_next_priority q1 message.priority) ∧
      (q1 ≠ [] → ∃ np, find_next_priority q1 message.priority = some np ∧
        ∀ it ∈ s'.message_queue,
          (it.priority = np → it.is_pending = false) ∧
          (it.priority > np → it.is_pending = true)) := by
  simp only [register_message_end, hend, Option.some.injEq] at hs'
  subst hs'
  refine ⟨if (registerEndEtapa1 message t s.message_queue).2 = false ∧
      message.interval > 0 then
      heappush (registerEndEtapa1 message t s.message_queue).1
        { filename := message.filename
          priority := message.priority
          interval := message.interval
          next_play_time := t + message.interval * 60
          end_time := some t
          is_pending := true
          last_played := message.last_played
          interval_seconds := message.interval_seconds }
    else (registerEndEtapa1 message t s.message_queue).1, by rfl, ?_⟩
  intro hne
  rcases find_next_priority_isSome hne with ⟨np, hnp⟩
  refine ⟨np, hnp, ?_⟩
  intro it hit
  simp only [heapify, hnp] at hit
  exact registerEndEtapa2_flags (find_next_priority_spec hnp).1 it hit

theorem registerEndEtapa2_mem_eq {queue : List MessageQueueItem} {t : ℚ}
    {np : ℤ} (hpresent : np ∈ queue.map (·.priority))
    {x : MessageQueueItem} (hx : x ∈ queue) (h1 : x.priority = np) :
    { x with
       next_play_time := t + x.interval * 60
       is_pending := false } ∈ registerEndEtapa2 queue t (some np) := by
  have hguard : pyAny (fun msg => msg.priority = np) queue = true := by
    rw [pyAny_eq_true]
    rcases List.mem_map.mp hpresent with ⟨y, hy, hyp⟩
    exact ⟨y, hy, hyp⟩
  rw [registerEndEtapa2]
  simp only [hguard, if_true]
  refine List.mem_map.mpr ⟨{ x with
       next_play_time := t + x.interval * 60
       is_pending := false }, List.mem_map.mpr ⟨x, hx, by rw [if_pos h1]⟩, ?_⟩
  rw [if_neg ?_]
  simp only []
  rw [h1]
  exact lt_irrefl np

theorem registerEndEtapa2_mem_gt {queue : List MessageQueueItem} {t : ℚ}
    {np : ℤ} (hpresent : np ∈ queue.map (·.priority))
    {x : MessageQueueItem} (hx : x ∈ queue) (h2 : x.priority > np) :
    { x with is_pending := true } ∈ registerEndEtapa2 queue t (some np) := by
  have hguard : pyAny (fun msg => msg.priority = np) queue = true := by
    rw [pyAny_eq_true]
    rcases List.mem_map.mp hpresent with ⟨y, hy, hyp⟩
    exact ⟨y, hy, hyp⟩
  have h1 : ¬ x.priority = np := by
    intro h
    rw [h] at h2
    exact lt_irrefl np h2
  rw [registerEndEtapa2]
  simp only [hguard, if_true]
  refine List.mem_map.mpr ⟨x, List.mem_map.mpr ⟨x, hx, by rw [if_neg h1]⟩,
    by rw [if_pos h2]⟩

theorem registerEndEtapa2_mem_keep {queue : List MessageQueueItem} {t : ℚ}
    {np : ℤ} (hpresent : np ∈ queue.map (·.priority))
    {x : MessageQueueItem} (hx : x ∈ queue) (h1 : ¬ x.priority = np)
    (h2 : ¬ x.priority > np) :
    x ∈ registerEndEtapa2 queue t (some np) := by
  have hguard : pyAny (fun msg => msg.priority = np) queue = true := by
    rw [pyAny_eq_true]
    rcases List.mem_map.mp hpresent with ⟨y, hy, hyp⟩
    exact ⟨y, hy, hyp⟩
  rw [registerEndEtapa2]
  simp only [hguard, if_true]
  refine List.mem_map.mpr ⟨x, List.mem_map.mpr ⟨x, hx, by rw [if_neg h1]⟩,
    by rw [if_neg h2]⟩

/-- C1 (amended): registering the end of playback of a queued item with a
positive interval at completion timestamp t updates the stored item to carry
end_time = t and next_play_time = t + interval seconds; it leaves last_played
untouched (the scheduler never writes that attribute), and instead of
unconditionally setting is_pending to true it hands the flag to the rotation
step: the item becomes active when its own priority is the next cyclic
priority, pending when its priority is beyond the activated tier, and keeps
its previous flag otherwise. -/
theorem register_end_reschedules_matched_item (s : QueueState)
    (message it0 : MessageQueueItem) (t : ℚ)
    (hend : message.end_time = some t)
    (hint : message.interval > 0)
    (hmem : it0 ∈ s.message_queue)
    (hfn : it0.filename = message.filename)
    (hpr : it0.priority = message.priority)
    (hintEq : it0.interval = message.interval)
    (huniq : ∀ it ∈ s.message_queue, it.filename = message.filename →
      it.priority = message.priority → it = it0) :
    ∃ s' np, register_message_end s message = some s' ∧
      find_next_priority (registerEndEtapa1 message t s.message_queue).1
        message.priority = some np ∧
      ∃ it ∈ s'.message_queue,
        it.filename = it0.filename ∧
        it.priority = it0.priority ∧
        it.end_time = some t ∧
        it.next_play_time = t + message.interval * 60 ∧
        it.last_played = it0.last_played ∧
        it.is_pending = (if it0.priority = np then false
          else if it0.priority > np then true else it0.is_pending) := by
  rcases registerEndEtapa1_found (t := t) hmem hfn hpr huniq hint with
    ⟨hfound, hupd, _⟩
  have hcond : ¬ ((registerEndEtapa1 message t s.message_queue).2 = false ∧
      message.interval > 0) := by
    rintro ⟨hf, _⟩
    rw [hfound] at hf
    exact Bool.noConfusion hf
  have hq1ne : (registerEndEtapa1 message t s.message_queue).1 ≠ [] := by
    intro hnil
    rw [hnil] at hupd
    exact List.not_mem_nil _ hupd
  rcases find_next_priority_isSome (p := message.priority) hq1ne with ⟨np, hnp⟩
  have hreg : register_message_end s message = some
      { message_queue := registerEndEtapa2
          (registerEndEtapa1 message t s.message_queue).1 t
          (find_next_priority
            (registerEndEtapa1 message t s.message_queue).1 message.priority)
        last_end_time_by_priority :=
          if (pyLookup message.priority s.last_end_time_by_priority).isSome
          then pyReplace message.priority t s.last_end_time_by_priority
          else s.last_end_time_by_priority ++ [(message.priority, t)]
        last_global_end_time := some t
        currently_playing := none } := by
    simp only [register_message_end, hend, if_neg hcond, heapify]
  refine ⟨_, np, hreg, hnp, ?_⟩
  have hpres : np ∈ (registerEndEtapa1 message t s.message_queue).1.map
      (·.priority) := (find_next_priority_spec hnp).1
  by_cases h1 : it0.priority = np
  · refine ⟨{ ({ it0 with
        next_play_time := t + message.interval * 60
        end_time := some t } : MessageQueueItem) with
        next_play_time := t + ({ it0 with
          next_play_time := t + message.interval * 60
          end_time := some t } : MessageQueueItem).interval * 60
        is_pending := false }, ?_, rfl, rfl, rfl, ?_, rfl, ?_⟩
    · simp only [hnp]
      exact registerEndEtapa2_mem_eq hpres hupd h1
    · simp only []
      rw [hintEq]
    · rw [if_pos h1]
  · by_cases h2 : it0.priority > np
    · refine ⟨{ ({ it0 with
          next_play_time := t + message.interval * 60
          end_time := some t } : MessageQueueItem) with
          is_pending := true }, ?_, rfl, rfl, rfl, rfl, rfl, ?_⟩
      · simp only [hnp]
        exact registerEndEtapa2_mem_gt hpres hupd h2
      · rw [if_neg h1, if_pos h2]
    · refine ⟨{ it0 with
          next_play_time := t + message.interval * 60
          end_time := some t }, ?_, rfl, rfl, rfl, rfl, rfl, ?_⟩
      · simp only [hnp]
        exact registerEndEtapa2_mem_keep hpres hupd h1 h2
      · rw [if_neg h1, if_neg h2]

theorem pyLookup_eq_none [DecidableEq κ] {key : κ} {m : List (κ × β)} :
    pyLookup key m = none ↔ ∀ pr ∈ m, pr.1 ≠ key := by
  induction m with
  | nil => simp [pyLookup]
  | cons x xs ih =>
      obtain ⟨k, v⟩ := x
      by_cases h : k = key
      · simp [pyLookup, if_pos h, h]
      · simp [pyLookup, if_neg h, ih, h]

theorem mem_pyReplace [DecidableEq κ] {key : κ} {v : β} {m : List (κ × β)}
    {pr : κ × β} (h : pr ∈ pyReplace key v m) : pr = (key, v) ∨ pr ∈ m := by
  induction m with
  | nil => simp [pyReplace] at h
  | cons x xs ih =>
      obtain ⟨k, w⟩ := x
      by_cases hk : k = key
      · rw [pyReplace, if_pos hk] at h
        rcases List.mem_cons.mp h with rfl | hmem
        · left
          rw [hk]
        · right
          exact List.mem_cons_of_mem _ hmem
      · rw [pyReplace, if_neg hk] at h
        rcases List.mem_cons.mp h with rfl | hmem
        · right
          exact List.mem_cons_self _ _
        · rcases ih hmem with h | h
          · exact Or.inl h
          · exact Or.inr (List.mem_cons_of_mem _ h)

theorem pairwise_fst_pyReplace [DecidableEq κ] {key : κ} {v : β}
    {m : List (κ × β)}
    (hpw : List.Pairwise (fun a b : κ × β => a.1 ≠ b.1) m) :
    List.Pairwise (fun a b : κ × β => a.1 ≠ b.1) (pyReplace key v m) := by
  induction m with
  | nil => simp [pyReplace]
  | cons x xs ih =>
      obtain ⟨k, w⟩ := x
      rcases List.pairwise_cons.mp hpw with ⟨hx, hxs⟩
      by_cases hk : k = key
      · rw [pyReplace, if_pos hk]
        exact List.pairwise_cons.mpr ⟨hx, hxs⟩
      · rw [pyReplace, if_neg hk]
        refine List.pairwise_cons.mpr ⟨?_, ih hxs⟩
        intro b hb
        rcases mem_pyReplace hb with rfl | hmem
        · exact hk
        · exact hx b hmem

theorem uniqFold_inv (items : List MessageQueueItem) :
    ∀ acc : List ((String × ℤ) × MessageQueueItem),
    (∀ pr ∈ acc, pr.1 = (pr.2.filename, pr.2.priority)) →
    List.Pairwise (fun a b => a.1 ≠ b.1) acc →
    (∀ pr ∈ items.foldl (fun m item =>
        match pyLookup (item.filename, item.priority) m with
        | some cur =>
            if item.next_play_time > cur.next_play_time then
              pyReplace (item.filename, item.priority) item m
            else m
        | none => m ++ [((item.filename, item.priority), item)]) acc,
      pr.1 = (pr.2.filename, pr.2.priority)) ∧
    List.Pairwise (fun a b => a.1 ≠ b.1)
      (items.foldl (fun m item =>
        match pyLookup (item.filename, item.priority) m with
        | some cur =>
            if item.next_play_time > cur.next_play_time then
              pyReplace (item.filename, item.priority) item m
            else m
        | none => m ++ [((item.filename, item.priority), item)]) acc) := by
  induction items with
  | nil => intro acc h1 h2; exact ⟨h1, h2⟩
  | cons item items ih =>
      intro acc h1 h2
      rw [List.foldl_cons]
      cases hl : pyLookup (item.filename, item.priority) acc with
      | some cur =>
          by_cases hnpt : item.next_play_time > cur.next_play_time
          · simp only [if_pos hnpt]
            refine ih _ ?_ (pairwise_fst_pyReplace h2)
            intro pr hpr
            rcases mem_pyReplace hpr with rfl | hmem
            · rfl
            · exact h1 pr hmem
          · simp only [if_neg hnpt]
            exact ih _ h1 h2
      | none =>
          simp only []
          refine ih _ ?_ ?_
          · intro pr hpr
            rcases List.mem_append.mp hpr with hmem | hmem
            · exact h1 pr hmem
            · rcases List.mem_cons.mp hmem with rfl | hf
              · rfl
              · cases hf
          · rw [List.pairwise_append]
            refine ⟨h2, List.pairwise_singleton _ _, ?_⟩
            intro a ha b hb
            rcases List.mem_cons.mp hb with rfl | hf
            · exact pyLookup_eq_none.mp hl a ha
            · cases hf

theorem uniqueByFilePriority_inv (items : List MessageQueueItem) :
    (∀ pr ∈ uniqueByFilePriority items,
      pr.1 = (pr.2.filename, pr.2.priority)) ∧
    List.Pairwise (fun a b => a.1 ≠ b.1) (uniqueByFilePriority items) := by
  rw [uniqueByFilePriority]
  exact uniqFold_inv items [] (by intro pr h; cases h) List.Pairwise.nil

theorem pymin_eq_none {l : List ℤ} : pymin l = none ↔ l = [] := by
  cases l <;> simp [pymin]

theorem reset_expired_times_spec (now : ℚ) (items : List MessageQueueItem) :
    List.Pairwise (fun a b =>
      (a.filename, a.priority) ≠ (b.filename, b.priority))
      (reset_expired_times now items) ∧
    ∀ it ∈ reset_expired_times now items, ∀ mp,
      pymin ((reset_expired_times now items).map (·.priority)) = some mp →
      (it.is_pending = false ↔ it.priority = mp) := by
  by_cases hempty : items = []
  · rw [reset_expired_times, if_pos hempty, hempty]
    exact ⟨List.Pairwise.nil, by intro it hit; cases hit⟩
  · simp only [reset_expired_times]
    rw [if_neg hempty]
    rcases uniqueByFilePriority_inv items with ⟨hkeys, hpwpairs⟩
    have hpwuniq : List.Pairwise (fun a b =>
        (a.filename, a.priority) ≠ (b.filename, b.priority))
        ((uniqueByFilePriority items).map (·.2)) := by
      rw [List.pairwise_map]
      refine List.Pairwise.imp_of_mem ?_ hpwpairs
      intro a b ha hb hne
      rw [← hkeys a ha, ← hkeys b hb]
      exact hne
    have hsym : Symmetric (fun a b : MessageQueueItem =>
        (a.filename, a.priority) ≠ (b.filename, b.priority)) := by
      intro a b h he
      exact h he.symm
    have hpwsorted : List.Pairwise (fun a b =>
        (a.filename, a.priority) ≠ (b.filename, b.priority))
        (stableSort (fun a b => a.priority < b.priority)
          ((uniqueByFilePriority items).map (·.2))) :=
      (List.Perm.pairwise_iff (fun h => hsym h) (perm_stableSort _)).mpr hpwuniq
    cases hmin : pymin ((stableSort (fun a b => a.priority < b.priority)
        ((uniqueByFilePriority items).map (·.2))).map (·.priority)) with
    | none =>
        have hnil : stableSort (fun a b => a.priority < b.priority)
            ((uniqueByFilePriority items).map (·.2)) = [] :=
          List.map_eq_nil_iff.mp (pymin_eq_none.mp hmin)
        rw [hnil]
        exact ⟨List.Pairwise.nil, by intro it hit; cases hit⟩
    | some lowest =>
        set sorted := stableSort (fun a b => a.priority < b.priority)
          ((uniqueByFilePriority items).map (·.2)) with hsorted
        set f := fun item : MessageQueueItem =>
          if item.next_play_time ≤ now then
            if item.priority = lowest then
              { item with is_pending := false, next_play_time := now + 10 }
            else { item with is_pending := true }
          else
            if item.priority = lowest then { item with is_pending := false }
            else { item with is_pending := true } with hf
        have hfname : ∀ x : MessageQueueItem, (f x).filename = x.filename := by
          intro x
          rw [hf]
          by_cases h1 : x.next_play_time ≤ now <;>
            by_cases h2 : x.priority = lowest <;> simp [h1, h2]
        have hfpr : ∀ x : MessageQueueItem, (f x).priority = x.priority := by
          intro x
          rw [hf]
          by_cases h1 : x.next_play_time ≤ now <;>
            by_cases h2 : x.priority = lowest <;> simp [h1, h2]
        have hfpend : ∀ x : MessageQueueItem,
            (f x).is_pending = false ↔ x.priority = lowest := by
          intro x
          rw [hf]
          by_cases h1 : x.next_play_time ≤ now <;>
            by_cases h2 : x.priority = lowest <;> simp [h1, h2]
        constructor
        · rw [List.pairwise_map]
          refine List.Pairwise.imp_of_mem ?_ hpwsorted
          intro a b _ _ hne
          rw [hfname a, hfname b, hfpr a, hfpr b]
          exact hne
        · intro it hit mp hmp
          have hmaps : (sorted.map f).map (·.priority) =
              sorted.map (·.priority) := by
            rw [List.map_map]
            refine List.map_congr_left ?_
            intro x _
            exact hfpr x
          rw [hmaps, hmin] at hmp
          rw [Option.some.injEq] at hmp
          subst hmp
          rcases List.mem_map.mp hit with ⟨x, _, hfx⟩
          rw [← hfx, hfpr x]
          exact hfpend x

/-- C10: right after constructing QueueService with a persistence path, the
restored in-memory queue contains at most one item per (filename, priority)
pair, and an item is active exactly when its priority equals the minimum
priority present in the loaded queue, regardless of the pending flags the
serializer restored. -/
theorem queue_service_init_dedups_and_activates_lowest
    (session_was_active : Bool) (data : Option SaveData) (now : ℚ) :
    List.Pairwise (fun a b =>
      (a.filename, a.priority) ≠ (b.filename, b.priority))
      (queue_service_init session_was_active data now).message_queue ∧
    ∀ it ∈ (queue_service_init session_was_active data now).message_queue,
      ∀ mp, pymin ((queue_service_init session_was_active data
        now).message_queue.map (·.priority)) = some mp →
      (it.is_pending = false ↔ it.priority = mp) := by
  simp only [queue_service_init, heapify]
  exact reset_expired_times_spec now
    (load_queue session_was_active data now)

/-! ## Closed evaluations of the fixtures -/

theorem eval_fx1 : register_message_end fx1State fx1Message = some fx1Final := by
  simp [fx1State, fx1Message, fx1Item, fx1Final, register_message_end,
    registerEndEtapa1, registerEndEtapa2, find_next_priority, pyDedup,
    pyFindFirst, stableSort, insertSorted, pymin, pyminAux, pyAny, pyLookup,
    pyReplace, heappush, heapify, fxItem, mkQS] <;> norm_num

theorem eval_fx2A : fx2StateA = fx2ExpA := by
  simp [fx2StateA, fx2ExpA, add_message, emptyQueueState, pyAny,
    topPriorityBranch, pymin, pyminAux, mkMessageQueueItem, heappush, fxItem,
    mkQS]

theorem eval_fx2B : fx2StateB = fx2ExpB := by
  rw [fx2StateB, eval_fx2A]
  simp [fx2ExpA, fx2ExpB, add_message, pyAny, topPriorityBranch, pymin,
    pyminAux, pyLookup, mkMessageQueueItem, heappush, fxItem, mkQS]

theorem eval_fx2Sel : fx2Select = fx2ExpSel := by
  rw [fx2Select, eval_fx2B]
  simp [fx2ExpB, fx2ExpSel, get_next_message, identify_duplicates,
    latestMessages, pyLookup, pyReplace, pyFilter, pymin, pyminAux,
    stableSort, insertSorted, fxItem, mkQS]

theorem eval_fx2C : fx2StateC = fx2ExpC := by
  rw [fx2StateC, eval_fx2Sel]
  simp [fx2ExpSel, fx2ExpC, add_message, pyAny, topPriorityBranch, pymin,
    pyminAux, pyLookup, mkMessageQueueItem, heappush, fxItem, mkQS] <;>
    norm_num

theorem eval_fx2Msg : fx2Message =
    { fxItem "a" 1 1 10 none false with end_time := some 20 } := by
  rw [fx2Message, eval_fx2Sel]
  simp [fx2ExpSel, fxItem]

theorem eval_fx2Final : fx2Final = fx2ExpFinal := by
  rw [fx2Final, eval_fx2C, eval_fx2Msg]
  simp [fx2ExpC, fx2ExpFinal, register_message_end, registerEndEtapa1,
    registerEndEtapa2, find_next_priority, pyDedup, pyFindFirst, stableSort,
    insertSorted, pymin, pyminAux, pyAny, pyLookup, pyReplace, heappush,
    heapify, fxItem, mkQS] <;> norm_num

theorem eval_fx3 : fx3Result = (fx3Expected, some fx3Item) := by
  simp [fx3Result, fx3Expected, fx3Item, add_message, emptyQueueState, pyAny,
    topPriorityBranch, pymin, pyminAux, mkMessageQueueItem, heappush, mkQS]

theorem eval_fx4A : fx4StateA = fx4ExpA := by
  simp [fx4StateA, fx4ExpA, add_message, emptyQueueState, pyAny,
    topPriorityBranch, pymin, pyminAux, pyLookup, mkMessageQueueItem,
    heappush, fxItem, mkQS] <;> norm_num

theorem eval_fx4Sel1 : fx4Select1 = fx4ExpSel1 := by
  rw [fx4Select1, eval_fx4A]
  simp [fx4ExpA, fx4ExpSel1, get_next_message, identify_duplicates,
    latestMessages, pyLookup, pyReplace, pyFilter, pymin, pyminAux,
    stableSort, insertSorted, fxItem, mkQS] <;> norm_num

theorem eval_fx4B : fx4StateB = fx4ExpB := by
  rw [fx4StateB, eval_fx4Sel1]
  simp [fx4ExpSel1, fx4ExpB, fx1Item, register_message_end,
    registerEndEtapa1, registerEndEtapa2, find_next_priority, pyDedup,
    pyFindFirst, stableSort, insertSorted, pymin, pyminAux, pyAny, pyLookup,
    pyReplace, heappush, heapify, fxItem, mkQS] <;> norm_num

theorem eval_fx4Sel2 : fx4Select2 = fx4ExpSel2 := by
  rw [fx4Select2, eval_fx4B]
  simp [fx4ExpB, fx4ExpSel2, get_next_message, identify_duplicates,
    latestMessages, pyLookup, pyReplace, pyFilter, pymin, pyminAux,
    stableSort, insertSorted, fxItem, mkQS] <;> norm_num

theorem eval_fx4C : fx4StateC = fx4ExpC := by
  rw [fx4StateC, eval_fx4Sel2]
  simp [fx4ExpSel2, fx4ExpC, fx1Item, register_message_end,
    registerEndEtapa1, registerEndEtapa2, find_next_priority, pyDedup,
    pyFindFirst, stableSort, insertSorted, pymin, pyminAux, pyAny, pyLookup,
    pyReplace, heappush, heapify, fxItem, mkQS] <;> norm_num

theorem eval_fx4Sel3 : fx4Select3 = fx4ExpSel3 := by
  rw [fx4Select3, eval_fx4C]
  simp [fx4ExpC, fx4ExpSel3, get_next_message, identify_duplicates,
    latestMessages, pyLookup, pyReplace, pyFilter, pymin, pyminAux,
    stableSort, insertSorted, fxItem, mkQS] <;> norm_num

theorem eval_fx4D : fx4StateD = fx4ExpD := by
  rw [fx4StateD, eval_fx4Sel3]
  simp [fx4ExpSel3, fx4ExpD, fx1Item, register_message_end,
    registerEndEtapa1, registerEndEtapa2, find_next_priority, pyDedup,
    pyFindFirst, stableSort, insertSorted, pymin, pyminAux, pyAny, pyLookup,
    pyReplace, heappush, heapify, fxItem, mkQS] <;> norm_num

theorem eval_fx6 : load_queue true (some (SaveData.wrapped fx6Snapshot))
    1000 = [fx6Item] := by
  simp [load_queue, detect_program_restart_v2, time_gap, fx6Snapshot,
    loadItems, load_item, mkMessageQueueItem, pyint, fx6Item] <;> norm_num

theorem eval_fx6init : queue_service_init true
    (some (SaveData.wrapped fx6Snapshot)) 1000 = mkQS [fx6Reset] [] none
    none := by
  simp only [queue_service_init, heapify]
  rw [eval_fx6]
  simp [reset_expired_times, uniqueByFilePriority, pyLookup, pyReplace,
    stableSort, insertSorted, pymin, pyminAux, fx6Item, fx6Reset, mkQS] <;>
    norm_num

/-- C7: _find_next_priority returns the numerically smallest priority present
in the queue that is strictly greater than the completed priority, wrapping
to the minimum present priority when no greater one exists; and with one item
at each of the priorities 1, 2 and 3, three consecutive
select-then-register-end rounds play the tiers in the order 1, 2, 3 and
leave tier 1 as the only active tier again. -/
theorem find_next_priority_cycles :
    (∀ (queue : List MessageQueueItem) (p : ℤ), queue ≠ [] →
      ∃ np, find_next_priority queue p = some np ∧
        np ∈ queue.map (·.priority) ∧
        ((∃ r ∈ queue.map (·.priority), r > p) →
          np > p ∧ ∀ r ∈ queue.map (·.priority), r > p → np ≤ r) ∧
        ((∀ r ∈ queue.map (·.priority), ¬ r > p) →
          ∀ r ∈ queue.map (·.priority), np ≤ r)) ∧
    fx4Select1.2.map (·.priority) = some 1 ∧
    fx4Select2.2.map (·.priority) = some 2 ∧
    fx4Select3.2.map (·.priority) = some 3 ∧
    (pyFilter (fun it => it.is_pending = false) fx4StateD.message_queue).map
      (·.priority) = [1] := by
  refine ⟨?_, ?_, ?_, ?_, ?_⟩
  · intro queue p hne
    rcases find_next_priority_isSome hne with ⟨np, hnp⟩
    rcases find_next_priority_spec hnp with ⟨h1, h2, h3⟩
    exact ⟨np, hnp, h1, h2, h3⟩
  · rw [eval_fx4Sel1]
    simp [fx4ExpSel1, fxItem, mkQS]
  · rw [eval_fx4Sel2]
    simp [fx4ExpSel2, fxItem, mkQS]
  · rw [eval_fx4Sel3]
    simp [fx4ExpSel3, fxItem, mkQS]
  · rw [eval_fx4D]
    simp [fx4ExpD, mkQS, fxItem, pyFilter]

/-- C1 counterexample: in a one-item queue, registering the end of that item
at timestamp 100 leaves the stored item with is_pending = false (the
single-tier rotation reactivates it) and last_played = none (the scheduler
never writes last_played), so the original claim that register_message_end
sets is_pending to true and last_played to the completion timestamp fails at
this input. -/
theorem register_end_pending_last_played_cex :
    register_message_end fx1State fx1Message = some fx1Final ∧
    fx1Final.message_queue.map (fun it => (it.is_pending, it.last_played)) =
      [(false, none)] ∧
    ¬ (∀ s', register_message_end fx1State fx1Message = some s' →
        ∀ it ∈ s'.message_queue, it.is_pending = true ∧
          it.last_played = some 100) := by
  refine ⟨eval_fx1, by simp [fx1Final, mkQS, fxItem], ?_⟩
  intro h
  have hres := h fx1Final eval_fx1 (fxItem "a" 1 1 160 (some 100) false)
    (by simp [fx1Final, mkQS])
  simp [fxItem] at hres

/-- C2 counterexample: the fx2 sequence of add, selection and register-end
operations reaches a state whose non-pending items have the distinct
priorities 3 and 1 (a fresh priority-1 message was activated by an add during
playback, and the completion then activated tier 3 without pending it), so
the single-active-tier invariant fails on a reachable state. -/
theorem two_active_tiers_reachable_cex :
    (pyFilter (fun it => it.is_pending = false) fx2Final.message_queue).map
      (·.priority) = [3, 1] ∧
    ¬ (∀ it1 ∈ pyFilter (fun it => it.is_pending = false)
        fx2Final.message_queue,
       ∀ it2 ∈ pyFilter (fun it => it.is_pending = false)
        fx2Final.message_queue, it1.priority = it2.priority) := by
  have hq : pyFilter (fun it => it.is_pending = false)
      fx2Final.message_queue = [fxItem "c" 3 1 80 none false,
        fxItem "b" 1 1 21 none false] := by
    rw [eval_fx2Final]
    simp [fx2ExpFinal, mkQS, fxItem, pyFilter]
  constructor
  · rw [hq]
    simp [fxItem]
  · intro h
    have hres := h _ (by rw [hq]; exact List.mem_cons_self _ _) _
      (by rw [hq]; exact List.mem_cons_of_mem _ (List.mem_cons_self _ _))
    simp [fxItem] at hres

/-- C6 counterexample: adding a message with a 0.1-minute interval (6
seconds) to an empty queue at time 0 schedules it for time 10 (the fixed
10-second delay of add_message), not for now + interval_seconds = 6 as the
original claim states. -/
theorem add_to_empty_queue_ten_seconds_cex :
    pyint ((1/10 : ℚ) * 60) = 6 ∧
    fx3Result.2.map (·.next_play_time) = some 10 ∧
    ¬ fx3Result.2.map (·.next_play_time) = some (0 + (6 : ℚ)) := by
  refine ⟨by norm_num [pyint], ?_, ?_⟩
  · rw [eval_fx3]
    simp [fx3Item]
  · rw [eval_fx3]
    simp [fx3Item]

/-- Witness for the amended C1 theorem at the fx1 fixture. -/
theorem register_end_reschedules_matched_item_witness :
    fx1Message.end_time = some 100 ∧ fx1Message.interval > 0 ∧
    (∃ s' np, register_message_end fx1State fx1Message = some s' ∧
      find_next_priority (registerEndEtapa1 fx1Message 100
        fx1State.message_queue).1 fx1Message.priority = some np ∧
      ∃ it ∈ s'.message_queue,
        it.filename = fx1Item.filename ∧
        it.priority = fx1Item.priority ∧
        it.end_time = some 100 ∧
        it.next_play_time = 100 + fx1Message.interval * 60 ∧
        it.last_played = fx1Item.last_played ∧
        it.is_pending = (if fx1Item.priority = np then false
          else if fx1Item.priority > np then true else fx1Item.is_pending)) := by
  refine ⟨rfl, by norm_num [fx1Message, fx1Item], ?_⟩
  refine register_end_reschedules_matched_item fx1State fx1Message fx1Item
    100 rfl (by norm_num [fx1Message, fx1Item])
    (List.mem_cons_self _ _) rfl rfl rfl ?_
  intro it hit _ _
  rcases List.mem_cons.mp hit with rfl | hf
  · rfl
  · cases hf

/-- Witness for the amended C2 theorem at the fx1 fixture. -/
theorem register_end_activates_single_next_tier_witness :
    fx1Message.end_time = some 100 ∧
    register_message_end fx1State fx1Message = some fx1Final ∧
    (∃ q1, fx1Final.message_queue =
        registerEndEtapa2 q1 100 (find_next_priority q1
          fx1Message.priority) ∧
      (q1 ≠ [] → ∃ np, find_next_priority q1 fx1Message.priority = some np ∧
        ∀ it ∈ fx1Final.message_queue,
          (it.priority = np → it.is_pending = false) ∧
          (it.priority > np → it.is_pending = true))) :=
  ⟨rfl, eval_fx1, register_end_activates_single_next_tier fx1State
    fx1Message 100 fx1Final rfl eval_fx1⟩

/-- Witness for the C4 theorem at the fx6 shutdown snapshot. -/
theorem load_queue_restart_resets_witness :
    detect_program_restart_v2 true fx6Snapshot 1000 = true ∧
    ((∃ sec : ℤ, fx6Item.interval_seconds = some sec ∧
      fx6Item.next_play_time = 1000 + (sec : ℚ)) ∧
     fx6Item.is_pending = decide (fx6Item.priority > 1) ∧
     fx6Item.last_played = none ∧ fx6Item.end_time = none) :=
  ⟨rfl, load_queue_restart_resets true (some (SaveData.wrapped fx6Snapshot))
    1000 (Or.inr ⟨fx6Snapshot, rfl, rfl⟩) fx6Item
    (by rw [eval_fx6]; exact List.mem_cons_self _ _)⟩

/-- Witness for the C5 theorem at the fx7 two-item queue. -/
theorem get_next_message_selects_lowest_ready_witness :
    List.Pairwise (fun a b => a.filename ≠ b.filename)
      fx7State.message_queue ∧
    ((get_next_message fx7State 10).2 = none ↔
      eligibleMessages fx7State.message_queue 10 = []) := by
  have hpw : List.Pairwise (fun a b => a.filename ≠ b.filename)
      fx7State.message_queue := by
    simp [fx7State, fx7Queue]
  exact ⟨hpw, (get_next_message_selects_lowest_ready fx7State 10 hpw).1⟩

/-- Witness for the amended C6 theorem: adding to the empty queue. -/
theorem add_top_priority_schedules_plus_ten_witness :
    pyAny (fun item => item.filename = "x") emptyQueueState.message_queue
      = false ∧
    topPriorityBranch 2 (emptyQueueState.message_queue.map (·.priority)) ∧
    (∃ m, (add_message emptyQueueState "x" 2 1 5).2 = some m ∧
      m.is_pending = false ∧ m.next_play_time = 5 + 10 ∧
      m ∈ (add_message emptyQueueState "x" 2 1 5).1.message_queue) :=
  ⟨rfl, True.intro, add_top_priority_schedules_plus_ten emptyQueueState "x"
    2 1 5 rfl True.intro⟩

/-- Witness for the C7 theorem at the fx7 queue with completed priority 1. -/
theorem find_next_priority_cycles_witness :
    ∃ np, find_next_priority fx7Queue 1 = some np ∧
      np ∈ fx7Queue.map (·.priority) ∧
      ((∃ r ∈ fx7Queue.map (·.priority), r > 1) →
        np > 1 ∧ ∀ r ∈ fx7Queue.map (·.priority), r > 1 → np ≤ r) ∧
      ((∀ r ∈ fx7Queue.map (·.priority), ¬ r > 1) →
        ∀ r ∈ fx7Queue.map (·.priority), np ≤ r) :=
  find_next_priority_cycles.1 fx7Queue 1
    (by rw [fx7Queue]; exact List.cons_ne_nil _ _)

/-- Witness for the C9 theorem at the fx5 manager state. -/
theorem handle_message_end_raises_type_error_witness :
    (handle_message_end fx5Manager 50).2 = some PyError.typeError ∧
    (handle_message_end fx5Manager 50).1.current_playing_message =
      some { ({ fx1Item with is_pending := false } : MessageQueueItem) with
        end_time := some (50 + fx5Manager.fade_duration) } ∧
    (handle_message_end fx5Manager 50).1.queue_state =
      fx5Manager.queue_state :=
  handle_message_end_raises_type_error fx5Manager 50
    { fx1Item with is_pending := false } rfl

/-- Witness for the C10 theorem at the fx6 snapshot load. -/
theorem queue_service_init_dedups_and_activates_lowest_witness :
    fx6Reset.is_pending = false ↔ fx6Reset.priority = 2 := by
  have hmem : fx6Reset ∈ (queue_service_init true
      (some (SaveData.wrapped fx6Snapshot)) 1000).message_queue := by
    rw [eval_fx6init]
    exact List.mem_cons_self _ _
  have hmin : pymin ((queue_service_init true
      (some (SaveData.wrapped fx6Snapshot)) 1000).message_queue.map
      (·.priority)) = some 2 := by
    rw [eval_fx6init]
    simp [mkQS, fx6Reset, fx6Item, pymin, pyminAux]
  exact (queue_service_init_dedups_and_activates_lowest true
    (some (SaveData.wrapped fx6Snapshot)) 1000).2 fx6Reset hmem 2 hmin
